import Mathlib

/-!
# edgex-ui-go: configuration and registry handlers

A shallow embedding of `internal/handler/appservice.go` and
`internal/handler/registercenter.go`.

The handlers are Go HTTP handlers that talk to external collaborators (the
configuration client, the registry client, the secret provider, an HTTP
client, `encoding/json`, `net/http`).  The embedding keeps the control flow of
each handler as it is written and represents

* a Go `error` by `GoError` (`none` is `nil`, `some msg` an error whose
  `Error()` text is `msg`);
* the clients, the secret provider and the HTTP client by the results they
  give back, as fields of `ResourceHandler` (what `rh.dic` and the imported
  packages provide);
* `encoding/json` and `http.Error` by what they compute: the decoder and the
  encoder on JSON documents, with numbers going through `float64`, and the
  response writer's treatment of the status code;
* the configuration store by an explicit state `σ` threaded through the calls
  of the configuration client;
* the effect of a handler by the response it writes (or the panic it raises)
  together with the ordered list of collaborator calls it performed.
-/

namespace EdgexUI

set_option maxRecDepth 100000
set_option exponentiation.threshold 4000

/-! ## Go values, JSON documents -/

/-- A Go `error` value: `none` is the nil error, `some msg` is an error whose
`Error()` method returns `msg`. -/
abbrev GoError := Option String

/-- The method call `err.Error()`.  On the nil error the call dereferences a nil
interface and panics, which is the `none` result. -/
def GoError.Error : GoError → Option String
| none => none
| some msg => some msg

/-- A Go slice: the nil slice, or a slice backed by elements (possibly none). -/
inductive Slice (α : Type)
| nil
| elems (xs : List α)
deriving Repr

/-- The builtin `len` of a slice. -/
def Slice.len {α : Type} : Slice α → Nat
| .nil => 0
| .elems xs => xs.length

/-! ### Numbers

A number is written in a JSON text as a decimal literal and held by Go as a
`float64`.  Both are represented exactly: the literal by its sign, digits and
decimal exponent, the `float64` by its sign, mantissa and binary exponent. -/

/-- A JSON number as it is written: the value is `digits * 10 ^ exponent`, with
a minus sign when `neg` is set. -/
structure NumberLiteral where
  neg : Bool
  digits : Nat
  exponent : Int
deriving Repr, DecidableEq

/-- A Go `float64`.  A finite value is `mant * 2 ^ exp` (with a minus sign when
`neg` is set) in the form the hardware holds it: `mant < 2 ^ 53`,
`-1074 ≤ exp ≤ 971`, and `2 ^ 52 ≤ mant` unless `exp = -1074`. -/
inductive Float64
| finite (neg : Bool) (mant : Nat) (exp : Int)
| inf (neg : Bool)
| nan
deriving Repr, DecidableEq

/-- The floor of the binary logarithm, by halving at most `fuel` times and
counting the halvings in `acc`. -/
def log2Fuel : Nat → Nat → Nat → Nat
| 0, _, acc => acc
| fuel + 1, n, acc => if n < 2 then acc else log2Fuel fuel (n / 2) (acc + 1)

/-- The floor of the binary logarithm of a positive number. -/
def log2 (n : Nat) : Nat :=
  log2Fuel n n 0

/-- The quotient `num / den` rounded to the nearest integer, a tie going to the
even one. -/
def roundHalfEven (num den : Nat) : Nat :=
  let q := num / den
  let r := num % den
  if 2 * r < den then q
  else if den < 2 * r then q + 1
  else if q % 2 = 0 then q else q + 1

/-- The mantissa and binary exponent of the `float64` nearest to the positive
quotient `num / den`, ties to even, or `none` when the quotient rounds to a
magnitude beyond the largest finite value. -/
def nearestFloat64 (num den : Nat) : Option (Nat × Int) :=
  let k0 : Int := (log2 num : Int) - (log2 den : Int)
  let below : Bool :=
    if 0 ≤ k0 then decide (num < den * 2 ^ k0.toNat)
    else decide (num * 2 ^ (-k0).toNat < den)
  let k := if below then k0 - 1 else k0
  if 1023 < k then none
  else
    let p := max (k - 52) (-1074)
    let mant :=
      if 0 ≤ p then roundHalfEven num (den * 2 ^ p.toNat)
      else roundHalfEven (num * 2 ^ (-p).toNat) den
    if mant = 2 ^ 53 then
      if 971 < p + 1 then none else some (2 ^ 52, p + 1)
    else some (mant, p)

/-- The call `strconv.ParseFloat(s, 64)` on the text of a literal, as the
decoder makes it for a number stored in an `interface{}`: the nearest
`float64`, ties to even, or `none` for the range error when the literal rounds
to a magnitude beyond the largest finite value.  A literal too small in
magnitude rounds to zero without error. -/
def parseFloat64 (lit : NumberLiteral) : Option Float64 :=
  let num := if 0 ≤ lit.exponent then lit.digits * 10 ^ lit.exponent.toNat else lit.digits
  let den := if 0 ≤ lit.exponent then 1 else 10 ^ (-lit.exponent).toNat
  if num = 0 then some (.finite lit.neg 0 (-1074))
  else
    match nearestFloat64 num den with
    | none => none
    | some (mant, p) => some (.finite lit.neg mant p)

/-- Removal of the trailing zeros of the digits of a literal, at most `fuel` of
them. -/
def stripZeros : Nat → Nat → Int → Nat × Int
| 0, d, e => (d, e)
| fuel + 1, d, e =>
  if d ≠ 0 ∧ d % 10 = 0 then stripZeros fuel (d / 10) (e + 1) else (d, e)

/-- The search of `strconv.FormatFloat(f, fmt, -1, 64)` for the shortest decimal
that reads back as `mant * 2 ^ exp`: going down from the decimal position
`k`, the first position at which the value rounded down or up to a multiple
of `10 ^ k` lies between the midpoints to the neighbouring `float64` values
(the midpoints themselves allowed when the mantissa is even); of two such
multiples the nearer one, a tie going to the even digit. -/
def shortestFrom (mant : Nat) (exp : Int) : Nat → Int → Nat × Int
| 0, k => (0, k)
| fuel + 1, k =>
  let e2 := exp - 2
  let n2 : Nat := if 0 ≤ e2 then 2 ^ e2.toNat else 1
  let d2 : Nat := if 0 ≤ e2 then 1 else 2 ^ (-e2).toNat
  let n10 : Nat := if 0 ≤ k then 1 else 10 ^ (-k).toNat
  let d10 : Nat := if 0 ≤ k then 10 ^ k.toNat else 1
  let b := d2 * d10
  let av := 4 * mant * n2 * n10
  let ah := (4 * mant + 2) * n2 * n10
  let al := (4 * mant - (if mant = 2 ^ 52 ∧ -1074 < exp then 1 else 2)) * n2 * n10
  let inclusive := mant % 2 = 0
  let c1 := av / b
  let c2 := if av % b = 0 then c1 else c1 + 1
  let ok (c : Nat) : Bool :=
    c ≠ 0 && (if inclusive then decide (al ≤ c * b ∧ c * b ≤ ah)
      else decide (al < c * b ∧ c * b < ah))
  if ok c1 && ok c2 then
    if av - c1 * b < c2 * b - av then (c1, k)
    else if c2 * b - av < av - c1 * b then (c2, k)
    else if c1 % 2 = 0 then (c1, k) else (c2, k)
  else if ok c1 then (c1, k)
  else if ok c2 then (c2, k)
  else shortestFrom mant exp fuel (k - 1)

/-- The number the encoder writes for a `float64`: the shortest decimal that
reads back as the same `float64`, or `none` for a value it refuses (NaN or an
infinity).  Whether the encoder uses an exponent in the text is formatting and
not represented. -/
def formatFloat64 : Float64 → Option NumberLiteral
| .nan => none
| .inf _ => none
| .finite neg mant exp =>
  if mant = 0 then some ⟨neg, 0, 0⟩
  else
    let bits : Int := (log2 mant : Int) + 1 + exp
    let s := shortestFrom mant exp 40 (bits * 30103 / 100000 + 3)
    let t := stripZeros (log2 s.1 + 1) s.1 s.2
    some ⟨neg, t.1, t.2⟩

/-- The text `strconv.FormatFloat` gives for a value the encoder refuses. -/
def Float64.unsupportedText : Float64 → String
| .nan => "NaN"
| .inf false => "+Inf"
| .inf true => "-Inf"
| .finite _ _ _ => ""

/-- The literal with the same value and no trailing zero in its digits; zero
has one form. -/
def NumberLiteral.canon (lit : NumberLiteral) : NumberLiteral :=
  if lit.digits = 0 then ⟨false, 0, 0⟩
  else
    let s := stripZeros (log2 lit.digits + 1) lit.digits lit.exponent
    ⟨lit.neg, s.1, s.2⟩

/-! ### Documents and Go values -/

/-- A JSON document as it is written, up to whitespace and the spelling of
strings and numbers: the members of an object are in the order of the text,
and a name may occur more than once. -/
inductive Json
| null
| bool (b : Bool)
| number (lit : NumberLiteral)
| string (s : String)
| array (elems : List Json)
| object (members : List (String × Json))

/-- A value `encoding/json` stores in an `interface{}`: nil, a bool, a float64,
a string, a `[]interface{}` or a `map[string]interface{}`.  The entries of a
map are listed once per key, in the order of the keys, which is the order in
which the encoder writes them. -/
inductive GoValue
| nil
| bool (b : Bool)
| float64 (f : Float64)
| string (s : String)
| slice (elems : List GoValue)
| map (entries : List (String × GoValue))

/-- A Go `map[string]interface{}` variable: the nil map, or a map with its
entries in the order of the keys. -/
inductive GoMap
| nil
| entries (kvs : List (String × GoValue))

/-- A body as the JSON decoder reads it: bytes that do not start with a JSON
value (with the decoder's error text), or the first JSON value of the stream. -/
inductive Payload
| malformed (err : String)
| document (j : Json)

/-- The name `encoding/json` uses for the kind of a JSON value in its type
errors. -/
def Json.kind : Json → String
| .null => "null"
| .bool _ => "bool"
| .number _ => "number"
| .string _ => "string"
| .array _ => "array"
| .object _ => "object"

/-- The order of Go strings on their runes, which is the order of their bytes. -/
def runesLess : List Char → List Char → Bool
| _, [] => false
| [], _ :: _ => true
| a :: as, b :: bs =>
  if a.toNat < b.toNat then true
  else if b.toNat < a.toNat then false
  else runesLess as bs

/-- The comparison `a < b` of two Go strings. -/
def stringLess (a b : String) : Bool :=
  runesLess a.data b.data

/-- The assignment `m[k] = v` on the entries of a map listed in key order: the
entry of `k` is replaced, or added at its place. -/
def mapAssign {α : Type} (k : String) (v : α) : List (String × α) → List (String × α)
| [] => [(k, v)]
| (k1, v1) :: rest =>
  if k = k1 then (k, v) :: rest
  else if stringLess k k1 then (k, v) :: (k1, v1) :: rest
  else (k1, v1) :: mapAssign k v rest

mutual
/-- The value the decoder stores in an `interface{}` for a JSON value: a number
becomes the nearest `float64` (a range error when there is none), an object a
map in which the last member of a name wins.  The error is the first one
met; its text also quotes the number as it is spelled, which a document does
not keep. -/
def decodeValue : Json → Except String GoValue
| .null => .ok .nil
| .bool b => .ok (.bool b)
| .number lit =>
  match parseFloat64 lit with
  | some f => .ok (.float64 f)
  | none => .error "json: cannot unmarshal number into Go value of type float64"
| .string s => .ok (.string s)
| .array elems =>
  match decodeElems elems with
  | .ok vs => .ok (.slice vs)
  | .error e => .error e
| .object members =>
  match decodeMembers members [] with
  | .ok kvs => .ok (.map kvs)
  | .error e => .error e
termination_by structural j => j
/-- The decoding of the elements of an array, in order. -/
def decodeElems : List Json → Except String (List GoValue)
| [] => .ok []
| j :: js =>
  match decodeValue j with
  | .error e => .error e
  | .ok v =>
    match decodeElems js with
    | .error e => .error e
    | .ok vs => .ok (v :: vs)
termination_by structural js => js
/-- The decoding of the members of an object, in order, into the entries `acc`
of the map being filled. -/
def decodeMembers : List (String × Json) → List (String × GoValue) →
    Except String (List (String × GoValue))
| [], acc => .ok acc
| (k, j) :: ms, acc =>
  match decodeValue j with
  | .error e => .error e
  | .ok v => decodeMembers ms (mapAssign k v acc)
termination_by structural ms => ms
end

mutual
/-- The JSON value the encoder writes for a value held in an `interface{}`: a
`float64` as the shortest decimal that reads back as it, a map as an object
with its members in key order; NaN and the infinities are refused. -/
def marshalValue : GoValue → Except String Json
| .nil => .ok .null
| .bool b => .ok (.bool b)
| .float64 f =>
  match formatFloat64 f with
  | some lit => .ok (.number lit)
  | none => .error ("json: unsupported value: " ++ f.unsupportedText)
| .string s => .ok (.string s)
| .slice elems =>
  match marshalElems elems with
  | .ok js => .ok (.array js)
  | .error e => .error e
| .map entries =>
  match marshalEntries entries with
  | .ok ms => .ok (.object ms)
  | .error e => .error e
termination_by structural v => v
/-- The encoding of the elements of a slice, in order. -/
def marshalElems : List GoValue → Except String (List Json)
| [] => .ok []
| v :: vs =>
  match marshalValue v with
  | .error e => .error e
  | .ok j =>
    match marshalElems vs with
    | .error e => .error e
    | .ok js => .ok (j :: js)
termination_by structural vs => vs
/-- The encoding of the entries of a map, in key order. -/
def marshalEntries : List (String × GoValue) → Except String (List (String × Json))
| [] => .ok []
| (k, v) :: kvs =>
  match marshalValue v with
  | .error e => .error e
  | .ok j =>
    match marshalEntries kvs with
    | .error e => .error e
    | .ok ms => .ok ((k, j) :: ms)
termination_by structural kvs => kvs
end

mutual
/-- The form of a JSON value that is the same for all texts of one value:
numbers without trailing zeros, the members of an object once per name (the
last one) and in the order of the names. -/
def Json.canon : Json → Json
| .null => .null
| .bool b => .bool b
| .number lit => .number lit.canon
| .string s => .string s
| .array elems => .array (canonElems elems)
| .object members => .object (canonMembers members [])
termination_by structural j => j
/-- The forms of the elements of an array. -/
def canonElems : List Json → List Json
| [] => []
| j :: js => j.canon :: canonElems js
termination_by structural js => js
/-- The forms of the members of an object, gathered in `acc`. -/
def canonMembers : List (String × Json) → List (String × Json) → List (String × Json)
| [], acc => acc
| (k, j) :: ms, acc => canonMembers ms (mapAssign k j.canon acc)
termination_by structural ms => ms
end

/-- Two JSON documents are JSON-equivalent: they denote the same value, whatever
the spelling of the numbers and the order of the members. -/
def JsonEquiv (a b : Json) : Prop :=
  a.canon = b.canon

/-- The call `json.NewDecoder(body).Decode(&config)` for `config` an empty
`map[string]interface{}`: an object fills the map, `null` sets the map to nil
without error, any other value is a type error. -/
def jsonDecodeMap : Payload → Except String GoMap
| .malformed err => .error err
| .document (.object members) =>
    match decodeMembers members [] with
    | .ok kvs => .ok (.entries kvs)
    | .error e => .error e
| .document .null => .ok .nil
| .document j =>
    .error ("json: cannot unmarshal " ++ j.kind ++ " into Go value of type map[string]interface \x7b\x7d")

/-- The call `json.Marshal(m)` for `m` a `map[string]interface{}`: the nil map
encodes as `null`, a map as an object; the error is that of the first value
the encoder refuses. -/
def jsonMarshalMap : GoMap → Except String Json
| .nil => .ok .null
| .entries kvs =>
    match marshalEntries kvs with
    | .ok ms => .ok (.object ms)
    | .error e => .error e

/-- The rune folding `encoding/json` applies to member names before it compares
them with a field name: ASCII letters to upper case, and the two non-ASCII
letters whose fold set has an ASCII letter (long s, Kelvin sign). -/
def foldRune (c : Char) : Char :=
  if c = Char.ofNat 0x017F then 'S'
  else if c = Char.ofNat 0x212A then 'K'
  else c.toUpper

/-- The folded form of a member name. -/
def foldName (s : String) : String :=
  String.mk (s.data.map foldRune)

/-- One step of decoding an object into `struct{ SecretID string }`: a member
named `SecretID` (up to folding) sets the field from a string, leaves it on
`null`, and records a type error (the first one is kept) on any other value. -/
def decodeAclMember (acc : String × GoError) (kv : String × Json) : String × GoError :=
  if foldName kv.1 = foldName "SecretID" then
    match kv.2 with
    | .string s => (s, acc.2)
    | .null => acc
    | j =>
      (acc.1, match acc.2 with
        | some e => some e
        | none => some ("json: cannot unmarshal " ++ j.kind ++
            " into Go struct field .SecretID of type string"))
  else acc

/-- The call `json.NewDecoder(resp.Body).Decode(&acl)` for
`var acl struct{ SecretID string }`: the error, or the decoded `SecretID`. -/
def decodeAcl : Payload → Except String String
| .malformed err => .error err
| .document (.object members) =>
    match members.foldl decodeAclMember ("", none) with
    | (_, some e) => .error e
    | (secretID, none) => .ok secretID
| .document .null => .ok ""
| .document j =>
    .error ("json: cannot unmarshal " ++ j.kind ++ " into Go value of type struct \x7b SecretID string \x7d")

/-! ## Process configuration and the configurations handed to the clients -/

/-- The fields of the registry section of the process configuration that the
handlers read. -/
structure RegistryInfo where
  Host : String
  Port : Int
  Type_ : String
  ConfigRegistryStem : String
  ServiceVersion : String
deriving Repr, DecidableEq

/-- The fields of the service section that the handlers read. -/
structure ServiceInfo where
  Host : String
  Port : Int
  HealthCheckInterval : String
deriving Repr, DecidableEq

/-- The fields of the API gateway section that the handlers read. -/
structure APIGatewayInfo where
  Server : String
  ApplicationPort : Int
deriving Repr, DecidableEq

/-- The process configuration, `container.ConfigurationFrom(rh.dic.Get)`. -/
structure ConfigurationStruct where
  Registry : RegistryInfo
  Service : ServiceInfo
  APIGateway : APIGatewayInfo
deriving Repr, DecidableEq

/-- The secret provider, `bootstrapContainer.SecretProviderExtFrom(rh.dic.Get)`,
as far as the handlers use it. -/
structure SecretProviderExt where
  IsZeroTrustEnabled : Bool
deriving Repr, DecidableEq

/-- The value `secret.NewJWTSecretProvider(sp)`, the authentication injector
given to both clients. -/
structure JWTSecretProvider where
  secretProvider : SecretProviderExt
deriving Repr, DecidableEq

/-- The constants the two files use and that are declared elsewhere. -/
structure Consts where
  AclOfConsulPathDirect : String
  AclOfConsulPathProxied : String
  Authorization : String
  GUIServiceKey : String
  DefaultHttpProtocol : String
  ApiPingRoute : String
deriving Repr, DecidableEq

/-- The registry module's `types.Config`, as `registryCenterClient` fills it. -/
structure RegistryConfig where
  Host : String
  Port : Int
  Type_ : String
  ServiceKey : String
  ServiceHost : String
  ServicePort : Int
  ServiceProtocol : String
  CheckInterval : String
  CheckRoute : String
  AuthInjector : JWTSecretProvider
deriving Repr, DecidableEq

/-- The configuration module's `types.ServiceConfig`, as
`configurationCenterClient` fills it. -/
structure ServiceConfig where
  Host : String
  Port : Int
  Type_ : String
  BasePath : String
  AuthInjector : JWTSecretProvider
deriving Repr, DecidableEq

/-- A registered endpoint, the registry module's `types.ServiceEndpoint`. -/
structure ServiceEndpoint where
  ServiceId : String
  Host : String
  Port : Int
deriving Repr, DecidableEq

/-- The JSON object the encoder writes for one endpoint. -/
def ServiceEndpoint.toJson (e : ServiceEndpoint) : Json :=
  .object [("ServiceId", .string e.ServiceId), ("Host", .string e.Host),
    ("Port", .number ⟨decide (e.Port < 0), e.Port.natAbs, 0⟩)]

/-- The call `json.Marshal(endpoints)` for `endpoints` a `[]types.ServiceEndpoint`:
the nil slice encodes as `null`, any other slice as an array. -/
def jsonMarshalEndpoints : Slice ServiceEndpoint → Except String Json
| .nil => .ok .null
| .elems xs => .ok (.array (xs.map ServiceEndpoint.toJson))

/-! ## Collaborators -/

/-- The value `GetConfiguration` returns as an `interface{}`: the nil interface,
a `*map[string]interface{}` (a nil pointer, or a pointer to a map), or a value
of another dynamic type. -/
inductive RawConfiguration
| nilInterface
| mapPtr (target : Option GoMap)
| other (typeName : String)

/-- A configuration client, by the results of the four methods the handlers
call, over a store state `σ`. -/
structure ConfigurationClient (σ : Type) where
  IsAlive : σ → Bool
  PutConfigurationMap : GoMap → Bool → σ → GoError × σ
  HasConfiguration : σ → Bool × GoError
  GetConfiguration : σ → Except String RawConfiguration

/-- A registry client, by the results of the two methods the handlers call. -/
structure RegistryClient where
  IsAlive : Bool
  GetAllServiceEndpoints : Except String (Slice ServiceEndpoint)
deriving Repr

/-- The response of the token exchange as the resolver reads it. -/
structure HttpResponse where
  StatusCode : Nat
  Body : Payload

/-- An inbound request: the route variables, the headers (absent ones read as
the empty string) and the body. -/
structure Request where
  Vars : String → String
  Header : String → String
  Body : Payload

/-- The receiver of the handlers: the process configuration and secret provider
found through `rh.dic`, and the packages the handlers call, each by its
results. -/
structure ResourceHandler (σ : Type) where
  consts : Consts
  config : ConfigurationStruct
  secretProvider : SecretProviderExt
  IsSecurityEnabled : Bool
  NewRequest : String → GoError
  Do : String → String → String → Except String HttpResponse
  NewRegistryClient : RegistryConfig → Except String RegistryClient
  NewConfigurationClient : ServiceConfig → Except String (ConfigurationClient σ)

/-- A call a handler makes to a collaborator, or to the token resolver. -/
inductive Call
| getAclTokenOfConsul
| NewRequest (url : String)
| Do (url : String) (headerName : String) (headerValue : String)
| NewRegistryClient (cfg : RegistryConfig)
| RegistryIsAlive
| GetAllServiceEndpoints
| NewConfigurationClient (cfg : ServiceConfig)
| ConfigurationIsAlive
| PutConfigurationMap (config : GoMap) (overwrite : Bool)
| HasConfiguration
| GetConfiguration

/-! ## Responses -/

def StatusOK : Nat := 200
def StatusBadRequest : Nat := 400
def StatusUnauthorized : Nat := 401
def StatusNotFound : Nat := 404
def StatusInternalServerError : Nat := 500
def StatusBadGateway : Nat := 502
def StatusServiceUnavailable : Nat := 503

/-- A response body: nothing written, the plain-text body `http.Error` writes
for a message (the message and a newline), or an encoded JSON value. -/
inductive Body
| empty
| plain (msg : String)
| json (j : Json)

/-- What the response writer holds when a handler returns: the status of the
response, the `Content-Type` the handler put in the header map, the body the
writer accepted, and the informational statuses sent before the response. -/
structure Response where
  status : Nat
  contentType : Option String
  body : Body
  interim : List Nat

/-- How a handler ends: it returns, leaving a response, or it panics. -/
inductive Outcome
| responded (r : Response)
| panicked (reason : String)

/-- The function `bodyAllowedForStatus` of `net/http`: no body goes with a 1xx,
204 or 304 status. -/
def bodyAllowedForStatus (status : Nat) : Bool :=
  if 100 ≤ status ∧ status ≤ 199 then false
  else if status = 204 then false
  else if status = 304 then false
  else true

/-- The call `http.Error(w, msg, code)` followed by `return`.  `WriteHeader`
panics on a code outside 100..999; a 1xx code other than 101 goes out as an
informational response, after which the write of the message sends the
status 200; for any other code the response has that status, and the message
as its plain-text body unless the status allows no body. -/
def httpError (msg : String) (code : Nat) : Outcome :=
  if code < 100 ∨ 999 < code then
    .panicked ("invalid WriteHeader code " ++ toString code)
  else if 100 ≤ code ∧ code ≤ 199 ∧ code ≠ 101 then
    .responded ⟨StatusOK, some "text/plain; charset=utf-8", .plain msg, [code]⟩
  else if bodyAllowedForStatus code then
    .responded ⟨code, some "text/plain; charset=utf-8", .plain msg, []⟩
  else
    .responded ⟨code, some "text/plain; charset=utf-8", .empty, []⟩

/-- A handler that returns without writing: the server answers 200 with no body. -/
def returnsEmpty : Outcome :=
  .responded ⟨StatusOK, none, .empty, []⟩

/-- The header set and `w.Write(result)` of the two reading handlers. -/
def writeJson (result : Json) : Outcome :=
  .responded ⟨StatusOK, some "application/json;charset=UTF-8", .json result, []⟩

/-- The panic of a method call on a nil interface value. -/
def nilDereference : Outcome :=
  .panicked "runtime error: invalid memory address or nil pointer dereference"

/-- The response status, when the handler responded. -/
def Outcome.status? : Outcome → Option Nat
| .responded r => some r.status
| .panicked _ => none

/-- The message of an `http.Error` response. -/
def Outcome.message? : Outcome → Option String
| .responded ⟨_, _, .plain msg, _⟩ => some msg
| _ => none

/-- The JSON value of a JSON response. -/
def Outcome.json? : Outcome → Option Json
| .responded ⟨_, _, .json j, _⟩ => some j
| _ => none

/-- The result of a registry handler. -/
structure Result where
  outcome : Outcome
  calls : List Call

/-- The result of a configuration handler, with the store it leaves. -/
structure StoreResult (σ : Type) where
  outcome : Outcome
  calls : List Call
  store : σ

/-! ## registercenter.go -/

/-- The format `fmt.Sprintf("http://%s:%d%s", host, port, path)`. -/
def sprintfURL (host : String) (port : Int) (path : String) : String :=
  "http://" ++ host ++ ":" ++ toString port ++ path

/-- The function `getAclTokenOfConsul`: the token, the error and the status
code it returns, and the calls it made. -/
def getAclTokenOfConsul {σ : Type} (rh : ResourceHandler σ) (r : Request) :
    (String × GoError × Nat) × List Call :=
  let config := rh.config
  let sp := rh.secretProvider
  let url :=
    if sp.IsZeroTrustEnabled then
      sprintfURL config.Registry.Host config.Registry.Port rh.consts.AclOfConsulPathDirect
    else
      sprintfURL config.APIGateway.Server config.APIGateway.ApplicationPort
        rh.consts.AclOfConsulPathProxied
  match rh.NewRequest url with
  | some err => (("", some err, StatusUnauthorized), [.NewRequest url])
  | none =>
    let bearer := "Bearer " ++ r.Header "X-Consul-Token"
    match rh.Do url rh.consts.Authorization bearer with
    | .error err =>
      (("", some err, StatusServiceUnavailable),
        [.NewRequest url, .Do url rh.consts.Authorization bearer])
    | .ok resp =>
      match decodeAcl resp.Body with
      | .error err =>
        (("", some err, StatusUnauthorized),
          [.NewRequest url, .Do url rh.consts.Authorization bearer])
      | .ok secretID =>
        if resp.StatusCode ≠ StatusOK then
          (("", some "", resp.StatusCode),
            [.NewRequest url, .Do url rh.consts.Authorization bearer])
        else
          ((secretID, none, resp.StatusCode),
            [.NewRequest url, .Do url rh.consts.Authorization bearer])

/-- The function `registryCenterClient`: the client or the error of
`registry.NewRegistryClient`, and the call made. -/
def registryCenterClient {σ : Type} (rh : ResourceHandler σ) (token : String) :
    Except String RegistryClient × List Call :=
  let bootstrapConfig := rh.config
  let registryConfig : RegistryConfig :=
    { Host := bootstrapConfig.Registry.Host
      Port := bootstrapConfig.Registry.Port
      Type_ := bootstrapConfig.Registry.Type_
      ServiceKey := rh.consts.GUIServiceKey
      ServiceHost := bootstrapConfig.Service.Host
      ServicePort := bootstrapConfig.Service.Port
      ServiceProtocol := rh.consts.DefaultHttpProtocol
      CheckInterval := bootstrapConfig.Service.HealthCheckInterval
      CheckRoute := rh.consts.ApiPingRoute
      AuthInjector := ⟨rh.secretProvider⟩ }
  (rh.NewRegistryClient registryConfig, [.NewRegistryClient registryConfig])

/-- The part of `GetRegisteredServiceAll` after the security block, entered with
the token and the calls made so far. -/
def listEndpoints {σ : Type} (rh : ResourceHandler σ) (token : String) (calls : List Call) :
    Result :=
  match registryCenterClient rh token with
  | (.error err, made) => ⟨httpError err StatusInternalServerError, calls ++ made⟩
  | (.ok client, made) =>
    match client.GetAllServiceEndpoints with
    | .error err =>
      ⟨httpError err StatusInternalServerError, calls ++ made ++ [.GetAllServiceEndpoints]⟩
    | .ok endpoints =>
      match jsonMarshalEndpoints endpoints with
      | .error err =>
        ⟨httpError err StatusInternalServerError, calls ++ made ++ [.GetAllServiceEndpoints]⟩
      | .ok result => ⟨writeJson result, calls ++ made ++ [.GetAllServiceEndpoints]⟩

/-- The handler `GetRegisteredServiceAll`. -/
def GetRegisteredServiceAll {σ : Type} (rh : ResourceHandler σ) (r : Request) : Result :=
  if rh.IsSecurityEnabled then
    match getAclTokenOfConsul rh r with
    | ((token, err, code), made) =>
      if err ≠ none ∨ code ≠ StatusOK then
        ⟨httpError "unable to get consul acl token" code, .getAclTokenOfConsul :: made⟩
      else listEndpoints rh token (.getAclTokenOfConsul :: made)
  else listEndpoints rh "" []

/-- The part of `RegistryIsAlive` after the security block.  The variable `err`
holds the error of `registryCenterClient`, which is nil once the client is
there, and `err.Error()` is called on it when the registry is not alive. -/
def checkAlive {σ : Type} (rh : ResourceHandler σ) (token : String) (calls : List Call) :
    Result :=
  match registryCenterClient rh token with
  | (.error err, made) => ⟨httpError err StatusInternalServerError, calls ++ made⟩
  | (.ok client, made) =>
    let err : GoError := none
    let alive := client.IsAlive
    if !alive then
      match GoError.Error err with
      | none => ⟨nilDereference, calls ++ made ++ [.RegistryIsAlive]⟩
      | some msg =>
        ⟨httpError msg StatusServiceUnavailable, calls ++ made ++ [.RegistryIsAlive]⟩
    else ⟨returnsEmpty, calls ++ made ++ [.RegistryIsAlive]⟩

/-- The handler `RegistryIsAlive`. -/
def RegistryIsAlive {σ : Type} (rh : ResourceHandler σ) (r : Request) : Result :=
  if rh.IsSecurityEnabled then
    match getAclTokenOfConsul rh r with
    | ((token, err, code), made) =>
      if err ≠ none ∨ code ≠ StatusOK then
        ⟨httpError "unable to get consul acl token" code, .getAclTokenOfConsul :: made⟩
      else checkAlive rh token (.getAclTokenOfConsul :: made)
  else checkAlive rh "" []

/-! ## appservice.go -/

/-- The function `configurationCenterClient`: the client, or the error, and the
calls made. -/
def configurationCenterClient {σ : Type} (rh : ResourceHandler σ) (serviceKey : String)
    (store : σ) : Except String (ConfigurationClient σ) × List Call :=
  let config := rh.config
  let configurationConfig : ServiceConfig :=
    { Host := config.Registry.Host
      Port := config.Registry.Port
      Type_ := config.Registry.Type_
      BasePath := config.Registry.ConfigRegistryStem ++ config.Registry.ServiceVersion ++ "/"
        ++ serviceKey
      AuthInjector := ⟨rh.secretProvider⟩ }
  match rh.NewConfigurationClient configurationConfig with
  | .error err =>
    (.error ("connection to Registry could not be made: " ++ err),
      [.NewConfigurationClient configurationConfig])
  | .ok client =>
    if !client.IsAlive store then
      (.error ("registry (" ++ configurationConfig.Type_ ++ ") is not running"),
        [.NewConfigurationClient configurationConfig, .ConfigurationIsAlive])
    else
      (.ok client,
        [.NewConfigurationClient configurationConfig, .ConfigurationIsAlive])

/-- The handler `DeployConfigurable`. -/
def DeployConfigurable {σ : Type} (rh : ResourceHandler σ) (r : Request) (store : σ) :
    StoreResult σ :=
  let serviceKey := r.Vars "servicekey"
  match jsonDecodeMap r.Body with
  | .error err => ⟨httpError err StatusBadRequest, [], store⟩
  | .ok config =>
    match configurationCenterClient rh serviceKey store with
    | (.error err, made) => ⟨httpError err StatusInternalServerError, made, store⟩
    | (.ok client, made) =>
      match client.PutConfigurationMap config true store with
      | (some err, store1) =>
        ⟨httpError err StatusBadGateway, made ++ [.PutConfigurationMap config true], store1⟩
      | (none, store1) =>
        ⟨returnsEmpty, made ++ [.PutConfigurationMap config true], store1⟩

/-- The handler `GetServiceConfig`. -/
def GetServiceConfig {σ : Type} (rh : ResourceHandler σ) (r : Request) (store : σ) :
    StoreResult σ :=
  let serviceKey := r.Vars "servicekey"
  match configurationCenterClient rh serviceKey store with
  | (.error err, made) => ⟨httpError err StatusNotFound, made, store⟩
  | (.ok client, made) =>
    match client.HasConfiguration store with
    | (hasConfig, _) =>
      if !hasConfig then
        ⟨httpError ("service [" ++ serviceKey ++ "] not found on register center")
          StatusNotFound, made ++ [.HasConfiguration], store⟩
      else
        match client.GetConfiguration store with
        | .error err =>
          ⟨httpError ("could not get configuration from Configuration: " ++ err)
            StatusInternalServerError, made ++ [.HasConfiguration, .GetConfiguration], store⟩
        | .ok rawConfiguration =>
          match rawConfiguration with
          | .mapPtr (some actual) =>
            match jsonMarshalMap actual with
            | .error err =>
              ⟨httpError err StatusInternalServerError,
                made ++ [.HasConfiguration, .GetConfiguration], store⟩
            | .ok result =>
              ⟨writeJson result, made ++ [.HasConfiguration, .GetConfiguration], store⟩
          | .mapPtr none =>
            ⟨nilDereference, made ++ [.HasConfiguration, .GetConfiguration], store⟩
          | _ =>
            ⟨httpError "Configuration from Registry failed type check"
              StatusInternalServerError, made ++ [.HasConfiguration, .GetConfiguration], store⟩

/-! ## Vocabulary of the properties -/

/-- A call that belongs to the token exchange: the resolver itself, the request
it builds, the request it sends. -/
def Call.isTokenExchange : Call → Bool
| .getAclTokenOfConsul => true
| .NewRequest _ => true
| .Do _ _ _ => true
| _ => false

/-- A request sent to an endpoint. -/
def Call.isDo : Call → Bool
| .Do _ _ _ => true
| _ => false

/-- A construction of a registry client. -/
def Call.isNewRegistryClient : Call → Bool
| .NewRegistryClient _ => true
| _ => false

/-- A construction of a configuration client. -/
def Call.isNewConfigurationClient : Call → Bool
| .NewConfigurationClient _ => true
| _ => false

/-- A bulk put. -/
def Call.isPutConfigurationMap : Call → Bool
| .PutConfigurationMap _ _ => true
| _ => false

/-- A read of the configuration. -/
def Call.isGetConfiguration : Call → Bool
| .GetConfiguration => true
| _ => false

/-- The token-exchange URL as the specification words it: the registry host and
port with the direct path in zero-trust mode, the API gateway server and
application port with the proxied path otherwise. -/
def tokenExchangeURL {σ : Type} (rh : ResourceHandler σ) : String :=
  if rh.secretProvider.IsZeroTrustEnabled = true then
    "http://" ++ rh.config.Registry.Host ++ ":" ++ toString rh.config.Registry.Port
      ++ rh.consts.AclOfConsulPathDirect
  else
    "http://" ++ rh.config.APIGateway.Server ++ ":"
      ++ toString rh.config.APIGateway.ApplicationPort ++ rh.consts.AclOfConsulPathProxied

/-- The security block of the two registry handlers lets the request through:
security is off, or the resolver returns a nil error and status 200. -/
def AuthResolves {σ : Type} (rh : ResourceHandler σ) (r : Request) : Prop :=
  rh.IsSecurityEnabled = true →
    (getAclTokenOfConsul rh r).1.2.1 = none ∧ (getAclTokenOfConsul rh r).1.2.2 = StatusOK

/-- A configuration client that is alive and stores exactly what
`PutConfigurationMap` is given: after a put of `m`, the namespace exists and
reading it returns `m`. -/
def StoresWhatItIsGiven {σ : Type} (client : ConfigurationClient σ) : Prop :=
  (∀ st, client.IsAlive st = true) ∧
  ∀ m st,
    (client.PutConfigurationMap m true st).1 = none ∧
    (client.HasConfiguration (client.PutConfigurationMap m true st).2).1 = true ∧
    client.GetConfiguration (client.PutConfigurationMap m true st).2 = .ok (.mapPtr (some m))

/-- A value the encoder accepts. -/
def Encodable (v : GoValue) : Prop :=
  ∃ j, marshalValue v = .ok j

/-- A number survives the decoder and the encoder: the decimal written for
the `float64` nearest to the literal has the value of the literal. -/
def numberSurvives (lit : NumberLiteral) : Bool :=
  match parseFloat64 lit with
  | none => false
  | some f =>
    match formatFloat64 f with
    | none => false
    | some out => decide (out.canon = lit.canon)

mutual
/-- Every number in a JSON value survives the decoder and the encoder. -/
def Json.numbersSurvive : Json → Bool
| .null => true
| .bool _ => true
| .number lit => numberSurvives lit
| .string _ => true
| .array elems => elemsSurvive elems
| .object members => membersSurvive members
termination_by structural j => j
/-- The same for the elements of an array. -/
def elemsSurvive : List Json → Bool
| [] => true
| j :: js => j.numbersSurvive && elemsSurvive js
termination_by structural js => js
/-- The same for the members of an object. -/
def membersSurvive : List (String × Json) → Bool
| [] => true
| (_, j) :: ms => j.numbersSurvive && membersSurvive ms
termination_by structural ms => ms
end

/-- The encoder writes for `v` a JSON value whose canonical form is `c`. -/
def EncodesAs (v : GoValue) (c : Json) : Prop :=
  ∃ B, marshalValue v = .ok B ∧ B.canon = c

/-- Entries and members with the same names, each entry encoded as the member. -/
def EntriesEncodeAs (kvs : List (String × GoValue)) (ms : List (String × Json)) : Prop :=
  List.Forall₂ (fun p q => p.1 = q.1 ∧ EncodesAs p.2 q.2) kvs ms

/-- The assignments of a list of entries, in order. -/
def assignAll {α : Type} (l : List (String × α)) (acc : List (String × α)) :
    List (String × α) :=
  l.foldl (fun a p => mapAssign p.1 p.2 a) acc

/-- Keys strictly increasing. -/
def KeysSorted {α : Type} (l : List (String × α)) : Prop :=
  l.Pairwise (fun p q => stringLess p.1 q.1 = true)

/-- A string occurs inside another. -/
def Contains (msg detail : String) : Prop :=
  ∃ pre post : String, msg = pre ++ detail ++ post

/-- The registry configuration of a deployment, without reference to a token. -/
def registryConfigOf {σ : Type} (rh : ResourceHandler σ) : RegistryConfig :=
  { Host := rh.config.Registry.Host
    Port := rh.config.Registry.Port
    Type_ := rh.config.Registry.Type_
    ServiceKey := rh.consts.GUIServiceKey
    ServiceHost := rh.config.Service.Host
    ServicePort := rh.config.Service.Port
    ServiceProtocol := rh.consts.DefaultHttpProtocol
    CheckInterval := rh.config.Service.HealthCheckInterval
    CheckRoute := rh.consts.ApiPingRoute
    AuthInjector := ⟨rh.secretProvider⟩ }

/-- The configuration-store configuration of a deployment for a service key. -/
def serviceConfigOf {σ : Type} (rh : ResourceHandler σ) (serviceKey : String) : ServiceConfig :=
  { Host := rh.config.Registry.Host
    Port := rh.config.Registry.Port
    Type_ := rh.config.Registry.Type_
    BasePath := rh.config.Registry.ConfigRegistryStem ++ rh.config.Registry.ServiceVersion ++ "/"
      ++ serviceKey
    AuthInjector := ⟨rh.secretProvider⟩ }

/-! ## A mock deployment, for concrete runs -/

/-- The state of the mock configuration store: the trees by base path. -/
abbrev MockStore := List (String × GoMap)

/-- The mock configuration client for one namespace: alive, a put stores the
tree under the base path, the namespace exists when a tree is stored. -/
def mockConfigurationClient (cfg : ServiceConfig) : ConfigurationClient MockStore :=
  { IsAlive := fun _ => true
    PutConfigurationMap := fun m _ st => (none, (cfg.BasePath, m) :: st)
    HasConfiguration := fun st => ((st.lookup cfg.BasePath).isSome, none)
    GetConfiguration := fun st =>
      match st.lookup cfg.BasePath with
      | some m => .ok (.mapPtr (some m))
      | none => .error "key not found" }

/-- Example values of the constants. -/
def mockConsts : Consts :=
  { AclOfConsulPathDirect := "/v1/acl/token/self"
    AclOfConsulPathProxied := "/consul/v1/acl/token/self"
    Authorization := "Authorization"
    GUIServiceKey := "ui"
    DefaultHttpProtocol := "http"
    ApiPingRoute := "/api/v3/ping" }

/-- An example process configuration. -/
def mockConfig : ConfigurationStruct :=
  { Registry := ⟨"localhost", 8500, "consul", "edgex/", "v4"⟩
    Service := ⟨"localhost", 4000, "10s"⟩
    APIGateway := ⟨"gateway", 8000⟩ }

/-- A deployment with security off, a live registry with one endpoint and the
mock configuration store. -/
def mockHandler : ResourceHandler MockStore :=
  { consts := mockConsts
    config := mockConfig
    secretProvider := ⟨false⟩
    IsSecurityEnabled := false
    NewRequest := fun _ => none
    Do := fun _ _ _ => .ok ⟨200, .document (.object [("SecretID", .string "s3cr3t")])⟩
    NewRegistryClient := fun _ => .ok ⟨true, .ok (.elems [⟨"core-data", "localhost", 59880⟩])⟩
    NewConfigurationClient := fun cfg => .ok (mockConfigurationClient cfg) }

/-- A request for the namespace `core-data` with the given body and no token. -/
def mockRequest (body : Payload) : Request :=
  { Vars := fun k => if k = "servicekey" then "core-data" else ""
    Header := fun _ => ""
    Body := body }

/-- An example configuration tree, as the body of a write. -/
def mockTree : List (String × Json) :=
  [("Writable", .object [("LogLevel", .string "INFO")]), ("Port", .number ⟨false, 59880, 0⟩),
    ("Ratio", .number ⟨false, 15, -1⟩)]

/-- The example tree as Go holds it once decoded: the entries in key order, the
numbers 59880 and 1.5 as `float64` values. -/
def mockTreeDecoded : List (String × GoValue) :=
  [("Port", .float64 (.finite false 8229844533903360 (-37))),
    ("Ratio", .float64 (.finite false 6755399441055744 (-52))),
    ("Writable", .map [("LogLevel", .string "INFO")])]

/-- A tree with a number that no `float64` holds exactly, 2^53 + 1. -/
def oddTree : List (String × Json) :=
  [("n", .number ⟨false, 9007199254740993, 0⟩)]

/-- A tree with a number beyond the range of `float64`. -/
def hugeTree : List (String × Json) :=
  [("n", .number ⟨false, 1, 400⟩)]

/-- The mock deployment with a registry that is reachable but not alive. -/
def notAliveHandler : ResourceHandler MockStore :=
  { mockHandler with NewRegistryClient := fun _ => .ok ⟨false, .ok .nil⟩ }

/-- The mock deployment with security on and a token exchange that answers 403
with a plain-text body. -/
def deniedHandler : ResourceHandler MockStore :=
  { mockHandler with
    IsSecurityEnabled := true
    Do := fun _ _ _ =>
      .ok ⟨403, .malformed "invalid character P looking for beginning of value"⟩ }

/-- The mock deployment with security on and a token exchange that answers 403
with a JSON body. -/
def forbiddenHandler : ResourceHandler MockStore :=
  { mockHandler with
    IsSecurityEnabled := true
    Do := fun _ _ _ => .ok ⟨403, .document (.object [])⟩ }

/-- The mock deployment with backends that refuse the connection. -/
def refusedHandler : ResourceHandler MockStore :=
  { mockHandler with
    NewRegistryClient := fun _ => .error "connection refused"
    NewConfigurationClient := fun _ => .error "connection refused" }

/-- The mock deployment with a registry that lists no endpoint, as a nil slice. -/
def nilListHandler : ResourceHandler MockStore :=
  { mockHandler with NewRegistryClient := fun _ => .ok ⟨true, .ok .nil⟩ }

/-- The mock deployment with a registry that lists no endpoint, as an empty
slice. -/
def emptyListHandler : ResourceHandler MockStore :=
  { mockHandler with NewRegistryClient := fun _ => .ok ⟨true, .ok (.elems [])⟩ }

/-- The mock deployment in zero-trust mode with security on and a registry port
of -1, for which no request can be built. -/
def badPortHandler : ResourceHandler MockStore :=
  { mockHandler with
    config := { mockConfig with Registry := ⟨"localhost", -1, "consul", "edgex/", "v4"⟩ }
    secretProvider := ⟨true⟩
    IsSecurityEnabled := true
    NewRequest := fun url =>
      if url = "http://localhost:-1/v1/acl/token/self" then
        some "invalid port after host"
      else none }

/-- The mock deployment with security on. -/
def secureHandler : ResourceHandler MockStore :=
  { mockHandler with IsSecurityEnabled := true }

/-! ## Shared lemmas -/

/-- The decoder stores finite values only. -/
theorem parseFloat64_finite (lit : NumberLiteral) (f : Float64)
    (h : parseFloat64 lit = some f) : ∃ n m e, f = .finite n m e := by
  unfold parseFloat64 at h
  simp only [] at h
  generalize (if 0 ≤ lit.exponent then lit.digits * 10 ^ lit.exponent.toNat else lit.digits)
    = num at h
  generalize (if 0 ≤ lit.exponent then 1 else 10 ^ (-lit.exponent).toNat) = den at h
  split at h
  · exact ⟨_, _, _, (Option.some.inj h).symm⟩
  · split at h
    · cases h
    · exact ⟨_, _, _, (Option.some.inj h).symm⟩

/-- The encoder writes every value the decoder stores. -/
theorem formatFloat64_of_parse (lit : NumberLiteral) (f : Float64)
    (h : parseFloat64 lit = some f) : ∃ out, formatFloat64 f = some out := by
  obtain ⟨n, m, e, rfl⟩ := parseFloat64_finite lit f h
  simp only [formatFloat64]
  split <;> exact ⟨_, rfl⟩

/-- Entries the encoder accepts one by one encode together. -/
theorem marshalEntries_of_encodable (kvs : List (String × GoValue))
    (h : ∀ p ∈ kvs, Encodable p.2) : ∃ ms, marshalEntries kvs = .ok ms := by
  induction kvs with
  | nil => exact ⟨[], by simp [marshalEntries]⟩
  | cons p rest ih =>
    obtain ⟨k, v⟩ := p
    obtain ⟨j, hj⟩ := h (k, v) (by simp)
    obtain ⟨ms, hms⟩ := ih (fun q hq => h q (by simp [hq]))
    exact ⟨(k, j) :: ms, by simp [marshalEntries, hj, hms]⟩

/-- Elements the encoder accepts one by one encode together. -/
theorem marshalElems_of_encodable (vs : List GoValue)
    (h : ∀ v ∈ vs, Encodable v) : ∃ js, marshalElems vs = .ok js := by
  induction vs with
  | nil => exact ⟨[], by simp [marshalElems]⟩
  | cons v rest ih =>
    obtain ⟨j, hj⟩ := h v (by simp)
    obtain ⟨js, hjs⟩ := ih (fun q hq => h q (by simp [hq]))
    exact ⟨j :: js, by simp [marshalElems, hj, hjs]⟩

/-- An assignment keeps the entries of a map acceptable to the encoder. -/
theorem mapAssign_encodable (k : String) (v : GoValue) (acc : List (String × GoValue))
    (hv : Encodable v) (h : ∀ p ∈ acc, Encodable p.2) :
    ∀ p ∈ mapAssign k v acc, Encodable p.2 := by
  induction acc with
  | nil => intro p hp; simp [mapAssign] at hp; subst hp; exact hv
  | cons q rest ih =>
    obtain ⟨k1, v1⟩ := q
    intro p hp
    simp only [mapAssign] at hp
    split at hp
    · simp at hp
      rcases hp with hp | hp
      · subst hp; exact hv
      · exact h p (by simp [hp])
    · split at hp
      · simp at hp
        rcases hp with hp | hp | hp
        · subst hp; exact hv
        · subst hp; exact h (k1, v1) (by simp)
        · exact h p (by simp [hp])
      · simp at hp
        rcases hp with hp | hp
        · subst hp; exact h (k1, v1) (by simp)
        · exact ih (fun q hq => h q (by simp [hq])) p hp

mutual
/-- Whatever the decoder stores for a JSON value, the encoder accepts. -/
theorem decodeValue_encodable : ∀ (j : Json) (v : GoValue), decodeValue j = .ok v → Encodable v
| .null, v, h => by simp [decodeValue] at h; subst h; exact ⟨.null, by simp [marshalValue]⟩
| .bool b, v, h => by simp [decodeValue] at h; subst h; exact ⟨.bool b, by simp [marshalValue]⟩
| .string s, v, h => by simp [decodeValue] at h; subst h; exact ⟨.string s, by simp [marshalValue]⟩
| .number lit, v, h => by
  simp only [decodeValue] at h
  cases hp : parseFloat64 lit with
  | none => simp [hp] at h
  | some f =>
    simp [hp] at h
    subst h
    obtain ⟨out, hout⟩ := formatFloat64_of_parse lit f hp
    exact ⟨.number out, by simp [marshalValue, hout]⟩
| .array elems, v, h => by
  simp only [decodeValue] at h
  cases hd : decodeElems elems with
  | error e => simp [hd] at h
  | ok vs =>
    simp [hd] at h
    subst h
    obtain ⟨js, hjs⟩ := marshalElems_of_encodable vs (decodeElems_encodable elems vs hd)
    exact ⟨.array js, by simp [marshalValue, hjs]⟩
| .object members, v, h => by
  simp only [decodeValue] at h
  cases hd : decodeMembers members [] with
  | error e => simp [hd] at h
  | ok kvs =>
    simp [hd] at h
    subst h
    obtain ⟨ms, hms⟩ := marshalEntries_of_encodable kvs
      (decodeMembers_encodable members [] kvs hd (by simp))
    exact ⟨.object ms, by simp [marshalValue, hms]⟩
/-- The same for the elements of an array. -/
theorem decodeElems_encodable : ∀ (js : List Json) (vs : List GoValue),
    decodeElems js = .ok vs → ∀ v ∈ vs, Encodable v
| [], vs, h => by simp [decodeElems] at h; subst h; simp
| j :: js, vs, h => by
  simp only [decodeElems] at h
  cases hj : decodeValue j with
  | error e => simp [hj] at h
  | ok v =>
    cases hjs : decodeElems js with
    | error e => simp [hj, hjs] at h
    | ok rest =>
      simp [hj, hjs] at h
      subst h
      intro w hw
      simp at hw
      rcases hw with hw | hw
      · subst hw; exact decodeValue_encodable j _ hj
      · exact decodeElems_encodable js rest hjs w hw
/-- The same for the members of an object, given acceptable entries so far. -/
theorem decodeMembers_encodable : ∀ (ms : List (String × Json)) (acc kvs : List (String × GoValue)),
    decodeMembers ms acc = .ok kvs → (∀ p ∈ acc, Encodable p.2) → ∀ p ∈ kvs, Encodable p.2
| [], acc, kvs, h, hacc => by simp [decodeMembers] at h; subst h; exact hacc
| (k, j) :: ms, acc, kvs, h, hacc => by
  simp only [decodeMembers] at h
  cases hj : decodeValue j with
  | error e => simp [hj] at h
  | ok v =>
    simp only [hj] at h
    exact decodeMembers_encodable ms (mapAssign k v acc) kvs h
      (mapAssign_encodable k v acc (decodeValue_encodable j v hj) hacc)
end

theorem registryCenterClient_eq {σ : Type} (rh : ResourceHandler σ) (token : String) :
    registryCenterClient rh token =
      (rh.NewRegistryClient (registryConfigOf rh), [.NewRegistryClient (registryConfigOf rh)]) :=
  rfl

theorem sprintfURL_eq {σ : Type} (rh : ResourceHandler σ) :
    (if rh.secretProvider.IsZeroTrustEnabled = true then
      sprintfURL rh.config.Registry.Host rh.config.Registry.Port rh.consts.AclOfConsulPathDirect
    else
      sprintfURL rh.config.APIGateway.Server rh.config.APIGateway.ApplicationPort
        rh.consts.AclOfConsulPathProxied) = tokenExchangeURL rh := by
  unfold tokenExchangeURL sprintfURL
  rfl

/-- The resolver when the request cannot be built. -/
theorem getAcl_newRequest_fails {σ : Type} (rh : ResourceHandler σ) (r : Request) (e : String)
    (h : rh.NewRequest (tokenExchangeURL rh) = some e) :
    getAclTokenOfConsul rh r =
      (("", some e, StatusUnauthorized), [.NewRequest (tokenExchangeURL rh)]) := by
  simp only [getAclTokenOfConsul, sprintfURL_eq, h]

/-- The resolver when the transport fails. -/
theorem getAcl_do_fails {σ : Type} (rh : ResourceHandler σ) (r : Request) (e : String)
    (h : rh.NewRequest (tokenExchangeURL rh) = none)
    (hdo : rh.Do (tokenExchangeURL rh) rh.consts.Authorization
      ("Bearer " ++ r.Header "X-Consul-Token") = .error e) :
    getAclTokenOfConsul rh r =
      (("", some e, StatusServiceUnavailable),
        [.NewRequest (tokenExchangeURL rh),
          .Do (tokenExchangeURL rh) rh.consts.Authorization
            ("Bearer " ++ r.Header "X-Consul-Token")]) := by
  simp only [getAclTokenOfConsul, sprintfURL_eq, h, hdo]

/-- The resolver when the body of the answer does not decode. -/
theorem getAcl_decode_fails {σ : Type} (rh : ResourceHandler σ) (r : Request)
    (resp : HttpResponse) (e : String)
    (h : rh.NewRequest (tokenExchangeURL rh) = none)
    (hdo : rh.Do (tokenExchangeURL rh) rh.consts.Authorization
      ("Bearer " ++ r.Header "X-Consul-Token") = .ok resp)
    (hdec : decodeAcl resp.Body = .error e) :
    getAclTokenOfConsul rh r =
      (("", some e, StatusUnauthorized),
        [.NewRequest (tokenExchangeURL rh),
          .Do (tokenExchangeURL rh) rh.consts.Authorization
            ("Bearer " ++ r.Header "X-Consul-Token")]) := by
  simp only [getAclTokenOfConsul, sprintfURL_eq, h, hdo, hdec]

/-- The resolver when the answer decodes and its status is not 200. -/
theorem getAcl_status {σ : Type} (rh : ResourceHandler σ) (r : Request)
    (resp : HttpResponse) (secretID : String)
    (h : rh.NewRequest (tokenExchangeURL rh) = none)
    (hdo : rh.Do (tokenExchangeURL rh) rh.consts.Authorization
      ("Bearer " ++ r.Header "X-Consul-Token") = .ok resp)
    (hdec : decodeAcl resp.Body = .ok secretID)
    (hs : resp.StatusCode ≠ StatusOK) :
    getAclTokenOfConsul rh r =
      (("", some "", resp.StatusCode),
        [.NewRequest (tokenExchangeURL rh),
          .Do (tokenExchangeURL rh) rh.consts.Authorization
            ("Bearer " ++ r.Header "X-Consul-Token")]) := by
  simp only [getAclTokenOfConsul, sprintfURL_eq, h, hdo, hdec, hs, ne_eq, not_false_eq_true,
    if_true]

/-- The resolver when the answer decodes and its status is 200. -/
theorem getAcl_ok {σ : Type} (rh : ResourceHandler σ) (r : Request)
    (resp : HttpResponse) (secretID : String)
    (h : rh.NewRequest (tokenExchangeURL rh) = none)
    (hdo : rh.Do (tokenExchangeURL rh) rh.consts.Authorization
      ("Bearer " ++ r.Header "X-Consul-Token") = .ok resp)
    (hdec : decodeAcl resp.Body = .ok secretID)
    (hs : resp.StatusCode = StatusOK) :
    getAclTokenOfConsul rh r =
      ((secretID, none, resp.StatusCode),
        [.NewRequest (tokenExchangeURL rh),
          .Do (tokenExchangeURL rh) rh.consts.Authorization
            ("Bearer " ++ r.Header "X-Consul-Token")]) := by
  simp only [getAclTokenOfConsul, sprintfURL_eq, h, hdo, hdec, hs, ne_eq, not_true_eq_false,
    if_false]

/-- The calls of the resolver: the request is built for the selected URL, and
sent there when it could be built. -/
theorem getAcl_calls {σ : Type} (rh : ResourceHandler σ) (r : Request) :
    (getAclTokenOfConsul rh r).2 = [.NewRequest (tokenExchangeURL rh)] ∨
    (getAclTokenOfConsul rh r).2 =
      [.NewRequest (tokenExchangeURL rh),
        .Do (tokenExchangeURL rh) rh.consts.Authorization
          ("Bearer " ++ r.Header "X-Consul-Token")] := by
  cases h : rh.NewRequest (tokenExchangeURL rh) with
  | some e => left; rw [getAcl_newRequest_fails rh r e h]
  | none =>
    right
    cases hdo : rh.Do (tokenExchangeURL rh) rh.consts.Authorization
        ("Bearer " ++ r.Header "X-Consul-Token") with
    | error e => rw [getAcl_do_fails rh r e h hdo]
    | ok resp =>
      cases hdec : decodeAcl resp.Body with
      | error e => rw [getAcl_decode_fails rh r resp e h hdo hdec]
      | ok secretID =>
        by_cases hs : resp.StatusCode = StatusOK
        · rw [getAcl_ok rh r resp secretID h hdo hdec hs]
        · rw [getAcl_status rh r resp secretID h hdo hdec hs]

/-- The handler `GetRegisteredServiceAll`, with the security block spelled out. -/
theorem GetRegisteredServiceAll_eq {σ : Type} (rh : ResourceHandler σ) (r : Request) :
    GetRegisteredServiceAll rh r =
      if rh.IsSecurityEnabled = true then
        if (getAclTokenOfConsul rh r).1.2.1 ≠ none ∨ (getAclTokenOfConsul rh r).1.2.2 ≠ StatusOK
        then
          ⟨httpError "unable to get consul acl token" (getAclTokenOfConsul rh r).1.2.2,
            .getAclTokenOfConsul :: (getAclTokenOfConsul rh r).2⟩
        else
          listEndpoints rh (getAclTokenOfConsul rh r).1.1
            (.getAclTokenOfConsul :: (getAclTokenOfConsul rh r).2)
      else listEndpoints rh "" [] :=
  rfl

/-- The handler `RegistryIsAlive`, with the security block spelled out. -/
theorem RegistryIsAlive_eq {σ : Type} (rh : ResourceHandler σ) (r : Request) :
    RegistryIsAlive rh r =
      if rh.IsSecurityEnabled = true then
        if (getAclTokenOfConsul rh r).1.2.1 ≠ none ∨ (getAclTokenOfConsul rh r).1.2.2 ≠ StatusOK
        then
          ⟨httpError "unable to get consul acl token" (getAclTokenOfConsul rh r).1.2.2,
            .getAclTokenOfConsul :: (getAclTokenOfConsul rh r).2⟩
        else
          checkAlive rh (getAclTokenOfConsul rh r).1.1
            (.getAclTokenOfConsul :: (getAclTokenOfConsul rh r).2)
      else checkAlive rh "" [] :=
  rfl

/-- When the security block lets the request through, `GetRegisteredServiceAll`
is the rest of the handler. -/
theorem GetRegisteredServiceAll_of_auth {σ : Type} (rh : ResourceHandler σ) (r : Request)
    (h : AuthResolves rh r) :
    ∃ token calls, GetRegisteredServiceAll rh r = listEndpoints rh token calls := by
  rw [GetRegisteredServiceAll_eq]
  by_cases hs : rh.IsSecurityEnabled = true
  · obtain ⟨h1, h2⟩ := h hs
    exact ⟨(getAclTokenOfConsul rh r).1.1, .getAclTokenOfConsul :: (getAclTokenOfConsul rh r).2,
      by simp [hs, h1, h2]⟩
  · exact ⟨"", [], by simp [hs]⟩

/-- When the security block lets the request through, `RegistryIsAlive` is the
rest of the handler. -/
theorem RegistryIsAlive_of_auth {σ : Type} (rh : ResourceHandler σ) (r : Request)
    (h : AuthResolves rh r) :
    ∃ token calls, RegistryIsAlive rh r = checkAlive rh token calls := by
  rw [RegistryIsAlive_eq]
  by_cases hs : rh.IsSecurityEnabled = true
  · obtain ⟨h1, h2⟩ := h hs
    exact ⟨(getAclTokenOfConsul rh r).1.1, .getAclTokenOfConsul :: (getAclTokenOfConsul rh r).2,
      by simp [hs, h1, h2]⟩
  · exact ⟨"", [], by simp [hs]⟩

/-- The calls of the rest of `GetRegisteredServiceAll`: those made before, the
construction of the client, and at most the listing. -/
theorem listEndpoints_calls {σ : Type} (rh : ResourceHandler σ) (token : String)
    (calls : List Call) :
    (listEndpoints rh token calls).calls = calls ++ [.NewRegistryClient (registryConfigOf rh)] ∨
    (listEndpoints rh token calls).calls =
      calls ++ [.NewRegistryClient (registryConfigOf rh)] ++ [.GetAllServiceEndpoints] := by
  unfold listEndpoints
  rw [registryCenterClient_eq]
  cases h : rh.NewRegistryClient (registryConfigOf rh) with
  | error e => left; rfl
  | ok client =>
    right
    simp only []
    cases h2 : client.GetAllServiceEndpoints with
    | error e => rfl
    | ok eps =>
      simp only []
      cases h3 : jsonMarshalEndpoints eps <;> rfl

/-- The calls of the rest of `RegistryIsAlive`. -/
theorem checkAlive_calls {σ : Type} (rh : ResourceHandler σ) (token : String)
    (calls : List Call) :
    (checkAlive rh token calls).calls = calls ++ [.NewRegistryClient (registryConfigOf rh)] ∨
    (checkAlive rh token calls).calls =
      calls ++ [.NewRegistryClient (registryConfigOf rh)] ++ [.RegistryIsAlive] := by
  unfold checkAlive
  rw [registryCenterClient_eq]
  cases h : rh.NewRegistryClient (registryConfigOf rh) with
  | error e => left; rfl
  | ok client =>
    right
    simp only []
    cases h2 : client.IsAlive <;> rfl

/-- The factory `configurationCenterClient`, by cases. -/
theorem configurationCenterClient_eq {σ : Type} (rh : ResourceHandler σ) (serviceKey : String)
    (store : σ) :
    configurationCenterClient rh serviceKey store =
      match rh.NewConfigurationClient (serviceConfigOf rh serviceKey) with
      | .error err =>
        (.error ("connection to Registry could not be made: " ++ err),
          [.NewConfigurationClient (serviceConfigOf rh serviceKey)])
      | .ok client =>
        if client.IsAlive store = true then
          (.ok client,
            [.NewConfigurationClient (serviceConfigOf rh serviceKey), .ConfigurationIsAlive])
        else
          (.error ("registry (" ++ rh.config.Registry.Type_ ++ ") is not running"),
            [.NewConfigurationClient (serviceConfigOf rh serviceKey), .ConfigurationIsAlive]) := by
  unfold configurationCenterClient
  simp only [serviceConfigOf]
  cases rh.NewConfigurationClient _ with
  | error e => rfl
  | ok client => cases h : client.IsAlive store <;> simp [h]

/-- The calls of the factory hold no put, no read and no token exchange. -/
theorem configurationCenterClient_calls {σ : Type} (rh : ResourceHandler σ)
    (serviceKey : String) (store : σ) :
    (configurationCenterClient rh serviceKey store).2 =
        [.NewConfigurationClient (serviceConfigOf rh serviceKey)] ∨
    (configurationCenterClient rh serviceKey store).2 =
        [.NewConfigurationClient (serviceConfigOf rh serviceKey), .ConfigurationIsAlive] := by
  rw [configurationCenterClient_eq]
  cases rh.NewConfigurationClient (serviceConfigOf rh serviceKey) with
  | error e => left; rfl
  | ok client =>
    right
    cases h : client.IsAlive store <;> simp [h]

/-- The handler `DeployConfigurable` once the body is decoded, by the result of
the factory. -/
theorem DeployConfigurable_decoded {σ : Type} (rh : ResourceHandler σ) (r : Request) (store : σ)
    (config : GoMap) (hdec : jsonDecodeMap r.Body = .ok config) :
    DeployConfigurable rh r store =
      match (configurationCenterClient rh (r.Vars "servicekey") store).1 with
      | .error err =>
        ⟨httpError err StatusInternalServerError,
          (configurationCenterClient rh (r.Vars "servicekey") store).2, store⟩
      | .ok client =>
        match (client.PutConfigurationMap config true store).1 with
        | some err =>
          ⟨httpError err StatusBadGateway,
            (configurationCenterClient rh (r.Vars "servicekey") store).2
              ++ [.PutConfigurationMap config true],
            (client.PutConfigurationMap config true store).2⟩
        | none =>
          ⟨returnsEmpty,
            (configurationCenterClient rh (r.Vars "servicekey") store).2
              ++ [.PutConfigurationMap config true],
            (client.PutConfigurationMap config true store).2⟩ := by
  unfold DeployConfigurable
  simp only [hdec]
  rcases configurationCenterClient rh (r.Vars "servicekey") store with ⟨res, made⟩
  cases res with
  | error e => rfl
  | ok client =>
    simp only []
    rcases client.PutConfigurationMap config true store with ⟨err, store1⟩
    cases err <;> rfl

/-- The handler `GetServiceConfig`, by the result of the factory and of the
existence check. -/
theorem GetServiceConfig_eq {σ : Type} (rh : ResourceHandler σ) (r : Request) (store : σ) :
    GetServiceConfig rh r store =
      match (configurationCenterClient rh (r.Vars "servicekey") store).1 with
      | .error err =>
        ⟨httpError err StatusNotFound,
          (configurationCenterClient rh (r.Vars "servicekey") store).2, store⟩
      | .ok client =>
        if (client.HasConfiguration store).1 = false then
          ⟨httpError ("service [" ++ r.Vars "servicekey" ++ "] not found on register center")
            StatusNotFound,
            (configurationCenterClient rh (r.Vars "servicekey") store).2 ++ [.HasConfiguration],
            store⟩
        else
          match client.GetConfiguration store with
          | .error err =>
            ⟨httpError ("could not get configuration from Configuration: " ++ err)
              StatusInternalServerError,
              (configurationCenterClient rh (r.Vars "servicekey") store).2
                ++ [.HasConfiguration, .GetConfiguration], store⟩
          | .ok (.mapPtr (some actual)) =>
            match jsonMarshalMap actual with
            | .error err =>
              ⟨httpError err StatusInternalServerError,
                (configurationCenterClient rh (r.Vars "servicekey") store).2
                  ++ [.HasConfiguration, .GetConfiguration], store⟩
            | .ok result =>
              ⟨writeJson result,
                (configurationCenterClient rh (r.Vars "servicekey") store).2
                  ++ [.HasConfiguration, .GetConfiguration], store⟩
          | .ok (.mapPtr none) =>
            ⟨nilDereference,
              (configurationCenterClient rh (r.Vars "servicekey") store).2
                ++ [.HasConfiguration, .GetConfiguration], store⟩
          | .ok _ =>
            ⟨httpError "Configuration from Registry failed type check"
              StatusInternalServerError,
              (configurationCenterClient rh (r.Vars "servicekey") store).2
                ++ [.HasConfiguration, .GetConfiguration], store⟩ := by
  unfold GetServiceConfig
  simp only []
  rcases configurationCenterClient rh (r.Vars "servicekey") store with ⟨res, made⟩
  cases res with
  | error e => rfl
  | ok client =>
    simp only []
    cases h : (client.HasConfiguration store).1 with
    | false => simp
    | true =>
      simp only [Bool.not_true, Bool.false_eq_true, if_false]
      cases client.GetConfiguration store with
      | error e => rfl
      | ok raw =>
        cases raw with
        | nilInterface => rfl
        | other t => rfl
        | mapPtr target =>
          cases target with
          | none => rfl
          | some actual => cases hm : jsonMarshalMap actual <;> simp [hm]

/-- The calls of `DeployConfigurable`: none, those of the factory, or those of
the factory and one put of the decoded tree with overwrite set. -/
theorem DeployConfigurable_calls {σ : Type} (rh : ResourceHandler σ) (r : Request) (store : σ) :
    (DeployConfigurable rh r store).calls = [] ∨
    (DeployConfigurable rh r store).calls =
      (configurationCenterClient rh (r.Vars "servicekey") store).2 ∨
    ∃ config, jsonDecodeMap r.Body = .ok config ∧
      (DeployConfigurable rh r store).calls =
        (configurationCenterClient rh (r.Vars "servicekey") store).2
          ++ [.PutConfigurationMap config true] := by
  cases hdec : jsonDecodeMap r.Body with
  | error e => left; simp [DeployConfigurable, hdec]
  | ok config =>
    right
    rw [DeployConfigurable_decoded rh r store config hdec]
    cases hc : (configurationCenterClient rh (r.Vars "servicekey") store).1 with
    | error e => left; rfl
    | ok client =>
      right
      refine ⟨config, rfl, ?_⟩
      cases hput : (client.PutConfigurationMap config true store).1 <;> simp only [hput]

/-- The calls of `GetServiceConfig`: those of the factory, then at most the
existence check, then at most the read. -/
theorem GetServiceConfig_calls {σ : Type} (rh : ResourceHandler σ) (r : Request) (store : σ) :
    (GetServiceConfig rh r store).calls =
      (configurationCenterClient rh (r.Vars "servicekey") store).2 ∨
    (GetServiceConfig rh r store).calls =
      (configurationCenterClient rh (r.Vars "servicekey") store).2 ++ [.HasConfiguration] ∨
    (GetServiceConfig rh r store).calls =
      (configurationCenterClient rh (r.Vars "servicekey") store).2
        ++ [.HasConfiguration, .GetConfiguration] := by
  rw [GetServiceConfig_eq]
  cases hc : (configurationCenterClient rh (r.Vars "servicekey") store).1 with
  | error e => left; rfl
  | ok client =>
    right
    simp only []
    cases hhas : (client.HasConfiguration store).1 with
    | false => left; rfl
    | true =>
      right
      simp only [Bool.true_eq_false, if_false]
      cases hget : client.GetConfiguration store with
      | error e => rfl
      | ok raw =>
        cases raw with
        | nilInterface => rfl
        | other t => rfl
        | mapPtr target =>
          cases target with
          | none => rfl
          | some actual => cases hm : jsonMarshalMap actual <;> simp only [hm]

/-- No list of runes is below itself. -/
theorem runesLess_irrefl (a : List Char) : runesLess a a = false := by
  induction a with
  | nil => rfl
  | cons c cs ih => simp [runesLess, ih]

/-- The order on lists of runes is transitive. -/
theorem runesLess_trans : ∀ (a b c : List Char), runesLess a b = true → runesLess b c = true →
    runesLess a c = true
| [], [], _, h, _ => by simp [runesLess] at h
| _ :: _, [], _, h, _ => by simp [runesLess] at h
| _, _ :: _, [], _, h => by simp [runesLess] at h
| [], _ :: _, _ :: _, _, _ => rfl
| x :: xs, y :: ys, z :: zs, h1, h2 => by
  simp only [runesLess] at h1 h2 ⊢
  by_cases hxy : x.toNat < y.toNat
  · by_cases hyz : y.toNat < z.toNat
    · have : x.toNat < z.toNat := by omega
      simp [this]
    · simp only [hyz, if_false] at h2
      by_cases hzy : z.toNat < y.toNat
      · simp [hzy] at h2
      · have : x.toNat < z.toNat := by omega
        simp [this]
  · simp only [hxy, if_false] at h1
    by_cases hyx : y.toNat < x.toNat
    · simp [hyx] at h1
    · simp only [hyx, if_false] at h1
      by_cases hyz : y.toNat < z.toNat
      · have : x.toNat < z.toNat := by omega
        simp [this]
      · simp only [hyz, if_false] at h2
        by_cases hzy : z.toNat < y.toNat
        · simp [hzy] at h2
        · simp only [hzy, if_false] at h2
          have h3 : ¬x.toNat < z.toNat := by omega
          have h4 : ¬z.toNat < x.toNat := by omega
          simp only [h3, h4, if_false]
          exact runesLess_trans xs ys zs h1 h2

/-- Of two different lists of runes one is below the other. -/
theorem runesLess_total : ∀ (a b : List Char), a ≠ b → runesLess a b = false →
    runesLess b a = true
| [], [], h, _ => absurd rfl h
| [], _ :: _, _, h => by simp [runesLess] at h
| _ :: _, [], _, _ => rfl
| x :: xs, y :: ys, hne, h => by
  simp only [runesLess] at h ⊢
  by_cases hxy : x.toNat < y.toNat
  · simp [hxy] at h
  · simp only [hxy, if_false] at h
    by_cases hyx : y.toNat < x.toNat
    · simp [hyx]
    · simp only [hyx, if_false] at h
      have hval : x.toNat = y.toNat := by omega
      have hc : x = y := by rw [← Char.ofNat_toNat x, ← Char.ofNat_toNat y, hval]
      subst hc
      simp only [Nat.lt_irrefl, if_false]
      exact runesLess_total xs ys (fun hh => hne (by rw [hh])) h

/-- No string is below itself. -/
theorem stringLess_irrefl (a : String) : stringLess a a = false :=
  runesLess_irrefl a.data

/-- The order on strings is transitive. -/
theorem stringLess_trans (a b c : String) (h1 : stringLess a b = true)
    (h2 : stringLess b c = true) : stringLess a c = true :=
  runesLess_trans _ _ _ h1 h2

/-- Of two different strings one is below the other. -/
theorem stringLess_total (a b : String) (hne : a ≠ b) (h : stringLess a b = false) :
    stringLess b a = true :=
  runesLess_total _ _ (fun hh => hne (String.ext hh)) h

/-- An entry of a map after an assignment is the assigned one or an old one. -/
theorem mem_mapAssign {α : Type} (k : String) (v : α) (acc : List (String × α))
    (q : String × α) (h : q ∈ mapAssign k v acc) : q = (k, v) ∨ q ∈ acc := by
  induction acc with
  | nil => simp [mapAssign] at h; exact Or.inl h
  | cons p rest ih =>
    obtain ⟨k1, v1⟩ := p
    simp only [mapAssign] at h
    split at h
    · simp at h
      rcases h with h | h
      · exact Or.inl h
      · exact Or.inr (by simp [h])
    · split at h
      · simp at h
        rcases h with h | h | h
        · exact Or.inl h
        · exact Or.inr (by simp [h])
        · exact Or.inr (by simp [h])
      · simp at h
        rcases h with h | h
        · exact Or.inr (by simp [h])
        · rcases ih h with h2 | h2
          · exact Or.inl h2
          · exact Or.inr (by simp [h2])

/-- An assignment keeps the entries in key order. -/
theorem mapAssign_sorted {α : Type} (k : String) (v : α) (acc : List (String × α))
    (h : KeysSorted acc) : KeysSorted (mapAssign k v acc) := by
  induction acc with
  | nil => simp [mapAssign, KeysSorted]
  | cons p rest ih =>
    obtain ⟨k1, v1⟩ := p
    unfold KeysSorted at h ih ⊢
    rw [List.pairwise_cons] at h
    obtain ⟨hhead, hrest⟩ := h
    simp only [mapAssign]
    split
    · rename_i hk
      subst hk
      exact List.pairwise_cons.mpr ⟨hhead, hrest⟩
    · split
      · rename_i hlt
        refine List.pairwise_cons.mpr ⟨?_, List.pairwise_cons.mpr ⟨hhead, hrest⟩⟩
        intro q hq
        simp at hq
        rcases hq with hq | hq
        · subst hq; exact hlt
        · exact stringLess_trans _ _ _ hlt (hhead q hq)
      · rename_i hne hnlt
        have hgt : stringLess k1 k = true :=
          stringLess_total k k1 hne (by simpa using hnlt)
        refine List.pairwise_cons.mpr ⟨?_, ih hrest⟩
        intro q hq
        rcases mem_mapAssign k v rest q hq with h2 | h2
        · subst h2; exact hgt
        · exact hhead q h2

/-- An assignment to a key above all others adds the entry at the end. -/
theorem mapAssign_append {α : Type} (k : String) (v : α) (acc : List (String × α))
    (h : ∀ p ∈ acc, stringLess p.1 k = true) : mapAssign k v acc = acc ++ [(k, v)] := by
  induction acc with
  | nil => rfl
  | cons p rest ih =>
    obtain ⟨k1, v1⟩ := p
    have h1 : stringLess k1 k = true := h (k1, v1) (by simp)
    have hne : k ≠ k1 := by
      intro hk
      subst hk
      rw [stringLess_irrefl] at h1
      cases h1
    have hnlt : ¬stringLess k k1 = true := by
      intro hlt
      have := stringLess_trans _ _ _ hlt h1
      rw [stringLess_irrefl] at this
      cases this
    have hnlt2 : stringLess k k1 = false := by simpa using hnlt
    simp [mapAssign, hne, hnlt2, ih (fun q hq => h q (by simp [hq]))]

/-- Assigning entries that come in key order lists them as they come. -/
theorem assignAll_sorted {α : Type} (l acc : List (String × α)) (h : KeysSorted (acc ++ l)) :
    assignAll l acc = acc ++ l := by
  induction l generalizing acc with
  | nil => simp [assignAll]
  | cons p rest ih =>
    have hp : ∀ q ∈ acc, stringLess q.1 p.1 = true := by
      intro q hq
      unfold KeysSorted at h
      rw [List.pairwise_append] at h
      exact h.2.2 q hq p (by simp)
    have hstep : assignAll (p :: rest) acc = assignAll rest (mapAssign p.1 p.2 acc) := rfl
    rw [hstep, mapAssign_append p.1 p.2 acc hp]
    have h2 : KeysSorted ((acc ++ [(p.1, p.2)]) ++ rest) := by
      simpa using h
    rw [ih _ h2]
    simp

/-- The canonical members are the assignments of the canonical values. -/
theorem canonMembers_eq (ms acc : List (String × Json)) :
    canonMembers ms acc = assignAll (ms.map (fun p => (p.1, p.2.canon))) acc := by
  induction ms generalizing acc with
  | nil => simp [canonMembers, assignAll]
  | cons p rest ih =>
    obtain ⟨k, j⟩ := p
    simp only [canonMembers, List.map_cons]
    rw [ih]
    rfl

/-- Assignments keep the entries in key order. -/
theorem assignAll_keysSorted {α : Type} (l acc : List (String × α)) (h : KeysSorted acc) :
    KeysSorted (assignAll l acc) := by
  induction l generalizing acc with
  | nil => simpa [assignAll] using h
  | cons p rest ih => exact ih _ (mapAssign_sorted p.1 p.2 acc h)

/-- The canonical members are in key order. -/
theorem canonMembers_sorted (ms : List (String × Json)) : KeysSorted (canonMembers ms []) := by
  rw [canonMembers_eq]
  exact assignAll_keysSorted _ _ (by simp [KeysSorted])

/-- Assignments on both sides keep entries and members in step. -/
theorem mapAssign_encodesAs (k : String) (v : GoValue) (c : Json)
    (acc : List (String × GoValue)) (acc1 : List (String × Json))
    (h : EntriesEncodeAs acc acc1) (hv : EncodesAs v c) :
    EntriesEncodeAs (mapAssign k v acc) (mapAssign k c acc1) := by
  unfold EntriesEncodeAs at h ⊢
  induction h with
  | nil => exact List.Forall₂.cons ⟨rfl, hv⟩ List.Forall₂.nil
  | cons hpq hrest ih =>
    rename_i p q l1 l2
    obtain ⟨k1, v1⟩ := p
    obtain ⟨k2, c2⟩ := q
    obtain ⟨hk, henc⟩ := hpq
    simp only at hk
    subst hk
    simp only [mapAssign]
    split
    · exact List.Forall₂.cons ⟨rfl, hv⟩ hrest
    · split
      · exact List.Forall₂.cons ⟨rfl, hv⟩ (List.Forall₂.cons ⟨rfl, henc⟩ hrest)
      · exact List.Forall₂.cons ⟨rfl, henc⟩ ih

/-- Entries in step with members encode to members with those canonical forms. -/
theorem marshalEntries_encodesAs (kvs : List (String × GoValue)) (cms : List (String × Json))
    (h : EntriesEncodeAs kvs cms) :
    ∃ ms, marshalEntries kvs = .ok ms ∧ ms.map (fun p => (p.1, p.2.canon)) = cms := by
  unfold EntriesEncodeAs at h
  induction h with
  | nil => exact ⟨[], by simp [marshalEntries], rfl⟩
  | cons hpq hrest ih =>
    rename_i p q l1 l2
    obtain ⟨k1, v1⟩ := p
    obtain ⟨k2, c2⟩ := q
    obtain ⟨hk, B, hB, hcanon⟩ := hpq
    simp only at hk hB hcanon
    subst hk
    obtain ⟨ms, hms, hmap⟩ := ih
    exact ⟨(k1, B) :: ms, by simp [marshalEntries, hB, hms], by simp [hcanon, hmap]⟩

mutual
/-- A JSON value whose numbers survive decodes, and what it decodes to encodes to
an equivalent value. -/
theorem decodeValue_survives : ∀ (j : Json), j.numbersSurvive = true →
    ∃ v, decodeValue j = .ok v ∧ EncodesAs v j.canon
| .null, _ => ⟨.nil, by simp [decodeValue], .null, by simp [marshalValue], by simp [Json.canon]⟩
| .bool b, _ => ⟨.bool b, by simp [decodeValue], .bool b, by simp [marshalValue],
    by simp [Json.canon]⟩
| .string s, _ => ⟨.string s, by simp [decodeValue], .string s, by simp [marshalValue],
    by simp [Json.canon]⟩
| .number lit, h => by
  simp only [Json.numbersSurvive, numberSurvives] at h
  cases hp : parseFloat64 lit with
  | none => simp [hp] at h
  | some f =>
    cases hf : formatFloat64 f with
    | none => simp [hp, hf] at h
    | some out =>
      simp [hp, hf] at h
      exact ⟨.float64 f, by simp [decodeValue, hp], .number out, by simp [marshalValue, hf],
        by simp [Json.canon, h]⟩
| .array elems, h => by
  simp only [Json.numbersSurvive] at h
  obtain ⟨vs, hvs, Bs, hBs, hcanon⟩ := decodeElems_survives elems h
  exact ⟨.slice vs, by simp [decodeValue, hvs], .array Bs, by simp [marshalValue, hBs],
    by simp [Json.canon, hcanon]⟩
| .object members, h => by
  simp only [Json.numbersSurvive] at h
  obtain ⟨kvs, hkvs, hrel⟩ := decodeMembers_survives members h [] [] List.Forall₂.nil
  obtain ⟨ms, hms, hmap⟩ := marshalEntries_encodesAs kvs _ hrel
  refine ⟨.map kvs, by simp [decodeValue, hkvs], .object ms, by simp [marshalValue, hms], ?_⟩
  simp only [Json.canon]
  rw [canonMembers_eq ms [], hmap, assignAll_sorted _ [] (by simpa using canonMembers_sorted members)]
  simp
/-- The same for the elements of an array. -/
theorem decodeElems_survives : ∀ (js : List Json), elemsSurvive js = true →
    ∃ vs, decodeElems js = .ok vs ∧ ∃ Bs, marshalElems vs = .ok Bs ∧
      canonElems Bs = canonElems js
| [], _ => ⟨[], by simp [decodeElems], [], by simp [marshalElems], rfl⟩
| j :: js, h => by
  simp only [elemsSurvive, Bool.and_eq_true] at h
  obtain ⟨v, hv, B, hB, hcanon⟩ := decodeValue_survives j h.1
  obtain ⟨vs, hvs, Bs, hBs, hcanons⟩ := decodeElems_survives js h.2
  exact ⟨v :: vs, by simp [decodeElems, hv, hvs], B :: Bs, by simp [marshalElems, hB, hBs],
    by simp [canonElems, hcanon, hcanons]⟩
/-- The same for the members of an object, from entries and members in step. -/
theorem decodeMembers_survives : ∀ (ms : List (String × Json)), membersSurvive ms = true →
    ∀ (acc : List (String × GoValue)) (acc1 : List (String × Json)), EntriesEncodeAs acc acc1 →
    ∃ kvs, decodeMembers ms acc = .ok kvs ∧ EntriesEncodeAs kvs (canonMembers ms acc1)
| [], _, acc, acc1, hacc => ⟨acc, by simp [decodeMembers], by simpa [canonMembers] using hacc⟩
| (k, j) :: ms, h, acc, acc1, hacc => by
  simp only [membersSurvive, Bool.and_eq_true] at h
  obtain ⟨v, hv, henc⟩ := decodeValue_survives j h.1
  obtain ⟨kvs, hkvs, hrel⟩ := decodeMembers_survives ms h.2 (mapAssign k v acc)
    (mapAssign k j.canon acc1) (mapAssign_encodesAs k v j.canon acc acc1 hacc henc)
  exact ⟨kvs, by simp [decodeMembers, hv, hkvs], by simpa [canonMembers] using hrel⟩
end

/-- The status of an `http.Error` response for a code that is a final status:
101, or 200 to 999. -/
theorem httpError_status (msg : String) (code : Nat) (h1 : code = 101 ∨ 200 ≤ code)
    (h2 : code ≤ 999) : (httpError msg code).status? = some code := by
  unfold httpError
  have hA : ¬(code < 100 ∨ 999 < code) := by omega
  have hB : ¬(100 ≤ code ∧ code ≤ 199 ∧ code ≠ 101) := by omega
  rw [if_neg hA, if_neg hB]
  split <;> rfl

/-- The panic of `http.Error` for a code outside 100..999. -/
theorem httpError_panics (msg : String) (code : Nat) (h : code < 100 ∨ 999 < code) :
    httpError msg code = .panicked ("invalid WriteHeader code " ++ toString code) := by
  unfold httpError
  rw [if_pos h]

/-- The response of `http.Error` for an informational code: the code goes out
first and the message follows with status 200. -/
theorem httpError_informational (msg : String) (code : Nat)
    (h : 100 ≤ code ∧ code ≤ 199 ∧ code ≠ 101) :
    httpError msg code =
      .responded ⟨StatusOK, some "text/plain; charset=utf-8", .plain msg, [code]⟩ := by
  unfold httpError
  have hA : ¬(code < 100 ∨ 999 < code) := by omega
  rw [if_neg hA, if_pos h]

/-! ## The claims -/

/-- C1 fails on the code: whenever the security block lets the request through, the
registry client is built and it reports not alive, `RegistryIsAlive` ends in
the nil-dereference panic and writes no response. -/
theorem RegistryIsAlive_not_alive_never_responds {σ : Type} (rh : ResourceHandler σ)
    (r : Request) (client : RegistryClient) (hauth : AuthResolves rh r)
    (hnew : rh.NewRegistryClient (registryConfigOf rh) = .ok client)
    (halive : client.IsAlive = false) :
    (RegistryIsAlive rh r).outcome = nilDereference ∧
    (RegistryIsAlive rh r).outcome.status? = none ∧
    (RegistryIsAlive rh r).outcome.message? = none := by
  obtain ⟨token, calls, h⟩ := RegistryIsAlive_of_auth rh r hauth
  have hout : (RegistryIsAlive rh r).outcome = nilDereference := by
    rw [h]
    unfold checkAlive
    simp [registryCenterClient_eq, hnew, halive, GoError.Error]
  rw [hout]
  exact ⟨rfl, rfl, rfl⟩

/-- C1 on the mock deployment with a registry that is not alive and security
off: the handler panics, no 503 response is written. -/
theorem RegistryIsAlive_not_alive_never_responds_witness :
    (RegistryIsAlive notAliveHandler (mockRequest (.malformed "EOF"))).outcome = nilDereference ∧
    (RegistryIsAlive notAliveHandler (mockRequest (.malformed "EOF"))).outcome.status? ≠
      some StatusServiceUnavailable :=
  have h := RegistryIsAlive_not_alive_never_responds notAliveHandler
    (mockRequest (.malformed "EOF")) ⟨false, .ok .nil⟩ (fun hs => Bool.noConfusion hs) rfl rfl
  ⟨h.1, by rw [h.2.1]; exact fun hc => Option.noConfusion hc⟩

/-- C5: when the configuration client is built and `HasConfiguration` reports
false, with or without an error beside it, `GetServiceConfig` answers 404 with
the message naming the service key, makes no `GetConfiguration` call and does
not answer 200. -/
theorem GetServiceConfig_absent_is_not_found {σ : Type} (rh : ResourceHandler σ) (r : Request)
    (store : σ) (client : ConfigurationClient σ)
    (hnew : (configurationCenterClient rh (r.Vars "servicekey") store).1 = .ok client)
    (hhas : (client.HasConfiguration store).1 = false) :
    (GetServiceConfig rh r store).outcome =
      httpError ("service [" ++ r.Vars "servicekey" ++ "] not found on register center")
        StatusNotFound ∧
    (GetServiceConfig rh r store).outcome.status? = some 404 ∧
    (∃ msg, (GetServiceConfig rh r store).outcome.message? = some msg ∧
      Contains msg (r.Vars "servicekey")) ∧
    (GetServiceConfig rh r store).calls.filter Call.isGetConfiguration = [] ∧
    (GetServiceConfig rh r store).outcome.status? ≠ some 200 := by
  have hcalls := configurationCenterClient_calls rh (r.Vars "servicekey") store
  have hout : GetServiceConfig rh r store =
      ⟨httpError ("service [" ++ r.Vars "servicekey" ++ "] not found on register center")
        StatusNotFound,
        (configurationCenterClient rh (r.Vars "servicekey") store).2 ++ [.HasConfiguration],
        store⟩ := by
    rw [GetServiceConfig_eq]
    simp only [hnew, hhas, if_true]
  rw [hout]
  refine ⟨rfl, rfl, ⟨_, rfl, "service [", "] not found on register center", rfl⟩, ?_, ?_⟩
  · rcases hcalls with h | h <;> simp [h, Call.isGetConfiguration]
  · simp [httpError, Outcome.status?, StatusNotFound, bodyAllowedForStatus]

/-- C5 on the mock deployment: nothing is stored for `core-data`, the read
answers 404. -/
theorem GetServiceConfig_absent_is_not_found_witness :
    (GetServiceConfig mockHandler (mockRequest (.malformed "EOF")) []).outcome.status?
      = some 404 :=
  (GetServiceConfig_absent_is_not_found mockHandler (mockRequest (.malformed "EOF")) []
    (mockConfigurationClient (serviceConfigOf mockHandler "core-data")) rfl rfl).2.1

/-- C9: with the security flag off, no handler calls the token resolver, builds
a token-exchange request or sends one. -/
theorem no_token_exchange_when_security_disabled {σ : Type} (rh : ResourceHandler σ)
    (r : Request) (store : σ) (hoff : rh.IsSecurityEnabled = false) :
    (DeployConfigurable rh r store).calls.filter Call.isTokenExchange = [] ∧
    (GetServiceConfig rh r store).calls.filter Call.isTokenExchange = [] ∧
    (GetRegisteredServiceAll rh r).calls.filter Call.isTokenExchange = [] ∧
    (RegistryIsAlive rh r).calls.filter Call.isTokenExchange = [] := by
  have hcalls := configurationCenterClient_calls rh (r.Vars "servicekey") store
  refine ⟨?_, ?_, ?_, ?_⟩
  · rcases DeployConfigurable_calls rh r store with h | h | ⟨config, _, h⟩ <;>
      rcases hcalls with h2 | h2 <;> simp [h, h2, Call.isTokenExchange]
  · rcases GetServiceConfig_calls rh r store with h | h | h <;>
      rcases hcalls with h2 | h2 <;> simp [h, h2, Call.isTokenExchange]
  · rw [GetRegisteredServiceAll_eq]
    simp only [hoff, Bool.false_eq_true, if_false]
    rcases listEndpoints_calls rh "" [] with h | h <;> simp [h, Call.isTokenExchange]
  · rw [RegistryIsAlive_eq]
    simp only [hoff, Bool.false_eq_true, if_false]
    rcases checkAlive_calls rh "" [] with h | h <;> simp [h, Call.isTokenExchange]

/-- C9 on the mock deployment, whose security flag is off. -/
theorem no_token_exchange_when_security_disabled_witness :
    (GetRegisteredServiceAll mockHandler (mockRequest (.malformed "EOF"))).calls.filter
      Call.isTokenExchange = [] :=
  (no_token_exchange_when_security_disabled mockHandler (mockRequest (.malformed "EOF")) []
    rfl).2.2.1

/-- C10: the result of `registryCenterClient`, and with it the configuration
handed to the registry client constructor, is the same for any two tokens; the
configuration is the one fixed by the deployment, and the rest of each registry
handler runs the same whichever token it is entered with. -/
theorem registryCenterClient_ignores_token {σ : Type} (rh : ResourceHandler σ)
    (t1 t2 : String) :
    registryCenterClient rh t1 = registryCenterClient rh t2 ∧
    (registryCenterClient rh t1).2 = [.NewRegistryClient (registryConfigOf rh)] ∧
    (registryCenterClient rh t2).2 = [.NewRegistryClient (registryConfigOf rh)] ∧
    (∀ calls, listEndpoints rh t1 calls = listEndpoints rh t2 calls) ∧
    (∀ calls, checkAlive rh t1 calls = checkAlive rh t2 calls) :=
  ⟨rfl, rfl, rfl, fun _ => rfl, fun _ => rfl⟩

/-- C2 fails as stated: the token exchange answers 403 with a body that is not
JSON, and both registry handlers answer 401, not 403. -/
theorem token_exchange_403_undecodable_yields_401 :
    (GetRegisteredServiceAll deniedHandler (mockRequest (.malformed "EOF"))).outcome.status?
      = some 401 ∧
    (RegistryIsAlive deniedHandler (mockRequest (.malformed "EOF"))).outcome.status?
      = some 401 ∧
    (GetRegisteredServiceAll deniedHandler (mockRequest (.malformed "EOF"))).outcome.status?
      ≠ some 403 := by
  have h := getAcl_decode_fails deniedHandler (mockRequest (.malformed "EOF"))
    ⟨403, .malformed "invalid character P looking for beginning of value"⟩
    "invalid character P looking for beginning of value" rfl rfl rfl
  refine ⟨?_, ?_, ?_⟩
  · rw [GetRegisteredServiceAll_eq, h]; rfl
  · rw [RegistryIsAlive_eq, h]; rfl
  · rw [GetRegisteredServiceAll_eq, h]
    intro hc
    have h2 : (401 : Nat) = 403 := Option.some.inj hc
    omega

/-- C2 as amended: with security on, each registry handler stops at the
security block with the message of the resolver failure, without building a
registry client, and answers 401 when the request cannot be built, 503 when
the transport fails, and 401 when the body of the answer does not decode
(whatever its status).  When the body decodes and the status `s` of the answer
is not 200 the handler passes `s` to `http.Error`: the response has exactly
the status `s` for `s = 101` or `200 < s ≤ 999`, the handler panics and writes
nothing for `s < 100` or `s > 999`, and for another 1xx status the message
goes out with status 200 after the informational `s`. -/
theorem token_exchange_failure_status {σ : Type} (rh : ResourceHandler σ) (r : Request)
    (hsec : rh.IsSecurityEnabled = true) :
    (∀ e, rh.NewRequest (tokenExchangeURL rh) = some e →
      (GetRegisteredServiceAll rh r).outcome =
        httpError "unable to get consul acl token" StatusUnauthorized ∧
      (RegistryIsAlive rh r).outcome =
        httpError "unable to get consul acl token" StatusUnauthorized) ∧
    (∀ e, rh.NewRequest (tokenExchangeURL rh) = none →
      rh.Do (tokenExchangeURL rh) rh.consts.Authorization
        ("Bearer " ++ r.Header "X-Consul-Token") = .error e →
      (GetRegisteredServiceAll rh r).outcome =
        httpError "unable to get consul acl token" StatusServiceUnavailable ∧
      (RegistryIsAlive rh r).outcome =
        httpError "unable to get consul acl token" StatusServiceUnavailable) ∧
    (∀ resp e, rh.NewRequest (tokenExchangeURL rh) = none →
      rh.Do (tokenExchangeURL rh) rh.consts.Authorization
        ("Bearer " ++ r.Header "X-Consul-Token") = .ok resp →
      decodeAcl resp.Body = .error e →
      (GetRegisteredServiceAll rh r).outcome =
        httpError "unable to get consul acl token" StatusUnauthorized ∧
      (RegistryIsAlive rh r).outcome =
        httpError "unable to get consul acl token" StatusUnauthorized) ∧
    (∀ resp secretID, rh.NewRequest (tokenExchangeURL rh) = none →
      rh.Do (tokenExchangeURL rh) rh.consts.Authorization
        ("Bearer " ++ r.Header "X-Consul-Token") = .ok resp →
      decodeAcl resp.Body = .ok secretID → resp.StatusCode ≠ StatusOK →
      ((GetRegisteredServiceAll rh r).outcome =
        httpError "unable to get consul acl token" resp.StatusCode ∧
      (RegistryIsAlive rh r).outcome =
        httpError "unable to get consul acl token" resp.StatusCode) ∧
      ((resp.StatusCode = 101 ∨ 200 ≤ resp.StatusCode) → resp.StatusCode ≤ 999 →
        (GetRegisteredServiceAll rh r).outcome.status? = some resp.StatusCode ∧
        (RegistryIsAlive rh r).outcome.status? = some resp.StatusCode) ∧
      ((resp.StatusCode < 100 ∨ 999 < resp.StatusCode) →
        (GetRegisteredServiceAll rh r).outcome =
          .panicked ("invalid WriteHeader code " ++ toString resp.StatusCode) ∧
        (RegistryIsAlive rh r).outcome =
          .panicked ("invalid WriteHeader code " ++ toString resp.StatusCode)) ∧
      ((100 ≤ resp.StatusCode ∧ resp.StatusCode ≤ 199 ∧ resp.StatusCode ≠ 101) →
        (GetRegisteredServiceAll rh r).outcome =
          .responded ⟨StatusOK, some "text/plain; charset=utf-8",
            .plain "unable to get consul acl token", [resp.StatusCode]⟩ ∧
        (RegistryIsAlive rh r).outcome =
          .responded ⟨StatusOK, some "text/plain; charset=utf-8",
            .plain "unable to get consul acl token", [resp.StatusCode]⟩)) ∧
    (((getAclTokenOfConsul rh r).1.2.1 ≠ none ∨ (getAclTokenOfConsul rh r).1.2.2 ≠ StatusOK) →
      (GetRegisteredServiceAll rh r).calls.filter Call.isNewRegistryClient = [] ∧
      (RegistryIsAlive rh r).calls.filter Call.isNewRegistryClient = []) := by
  refine ⟨?_, ?_, ?_, ?_, ?_⟩
  · intro e h
    rw [GetRegisteredServiceAll_eq, RegistryIsAlive_eq, getAcl_newRequest_fails rh r e h]
    simp [hsec]
  · intro e h hdo
    rw [GetRegisteredServiceAll_eq, RegistryIsAlive_eq, getAcl_do_fails rh r e h hdo]
    simp [hsec]
  · intro resp e h hdo hdec
    rw [GetRegisteredServiceAll_eq, RegistryIsAlive_eq, getAcl_decode_fails rh r resp e h hdo hdec]
    simp [hsec]
  · intro resp secretID h hdo hdec hs
    have hout : (GetRegisteredServiceAll rh r).outcome =
          httpError "unable to get consul acl token" resp.StatusCode ∧
        (RegistryIsAlive rh r).outcome =
          httpError "unable to get consul acl token" resp.StatusCode := by
      rw [GetRegisteredServiceAll_eq, RegistryIsAlive_eq,
        getAcl_status rh r resp secretID h hdo hdec hs]
      simp [hsec]
    refine ⟨hout, ?_, ?_, ?_⟩
    · intro h1 h2
      rw [hout.1, hout.2]
      exact ⟨httpError_status _ _ h1 h2, httpError_status _ _ h1 h2⟩
    · intro h1
      rw [hout.1, hout.2]
      exact ⟨httpError_panics _ _ h1, httpError_panics _ _ h1⟩
    · intro h1
      rw [hout.1, hout.2]
      exact ⟨httpError_informational _ _ h1, httpError_informational _ _ h1⟩
  · intro hfail
    rw [GetRegisteredServiceAll_eq, RegistryIsAlive_eq]
    simp only [hsec, if_true, hfail]
    rcases getAcl_calls rh r with h | h <;> simp [h, Call.isNewRegistryClient]

/-- C2 as amended, on the mock deployment whose token exchange answers 403 with
a JSON body: the list handler answers 403. -/
theorem token_exchange_failure_status_witness :
    (GetRegisteredServiceAll forbiddenHandler (mockRequest (.malformed "EOF"))).outcome.status?
      = some 403 :=
  (((token_exchange_failure_status forbiddenHandler (mockRequest (.malformed "EOF"))
    rfl).2.2.2.1 ⟨403, .document (.object [])⟩ "" rfl rfl rfl (by decide)).2.1
    (Or.inr (by decide)) (by decide)).1

/-- C3 fails as stated: the configuration client cannot be built (connection
refused) and `GetServiceConfig` answers 404, which is neither 500 nor 502. -/
theorem GetServiceConfig_construction_failure_is_404 :
    (configurationCenterClient refusedHandler "core-data" []).1 =
      .error "connection to Registry could not be made: connection refused" ∧
    (GetServiceConfig refusedHandler (mockRequest (.malformed "EOF")) []).outcome.status?
      = some 404 ∧
    (GetServiceConfig refusedHandler (mockRequest (.malformed "EOF")) []).outcome.status?
      ≠ some 500 ∧
    (GetServiceConfig refusedHandler (mockRequest (.malformed "EOF")) []).outcome.status?
      ≠ some 502 := by
  refine ⟨rfl, rfl, ?_, ?_⟩ <;>
  · intro hc
    have h2 := Option.some.inj
      (show some (404 : Nat) = some _ from hc)
    omega

/-- C3 as amended: when the construction of the backend client fails with
error `e`, the message of the response holds the text of `e`, and the status
is 500 for `DeployConfigurable` (once the body is decoded),
`GetRegisteredServiceAll` and `RegistryIsAlive` (once the security block is
passed), and 404 for `GetServiceConfig`; a configuration store that is built
but not alive is reported the same way with the text that names it as not
running. -/
theorem construction_failure_response {σ : Type} (rh : ResourceHandler σ) (r : Request)
    (store : σ) (e : String) :
    (rh.NewConfigurationClient (serviceConfigOf rh (r.Vars "servicekey")) = .error e →
      (∀ config, jsonDecodeMap r.Body = .ok config →
        (DeployConfigurable rh r store).outcome =
          httpError ("connection to Registry could not be made: " ++ e)
            StatusInternalServerError) ∧
      (GetServiceConfig rh r store).outcome =
        httpError ("connection to Registry could not be made: " ++ e) StatusNotFound ∧
      Contains ("connection to Registry could not be made: " ++ e) e) ∧
    (∀ client, rh.NewConfigurationClient (serviceConfigOf rh (r.Vars "servicekey")) = .ok client →
      client.IsAlive store = false →
      (∀ config, jsonDecodeMap r.Body = .ok config →
        (DeployConfigurable rh r store).outcome =
          httpError ("registry (" ++ rh.config.Registry.Type_ ++ ") is not running")
            StatusInternalServerError) ∧
      (GetServiceConfig rh r store).outcome =
        httpError ("registry (" ++ rh.config.Registry.Type_ ++ ") is not running")
          StatusNotFound) ∧
    (rh.NewRegistryClient (registryConfigOf rh) = .error e → AuthResolves rh r →
      (GetRegisteredServiceAll rh r).outcome = httpError e StatusInternalServerError ∧
      (RegistryIsAlive rh r).outcome = httpError e StatusInternalServerError ∧
      Contains e e) := by
  refine ⟨?_, ?_, ?_⟩
  · intro hnew
    have hc : configurationCenterClient rh (r.Vars "servicekey") store =
        (.error ("connection to Registry could not be made: " ++ e),
          [.NewConfigurationClient (serviceConfigOf rh (r.Vars "servicekey"))]) := by
      rw [configurationCenterClient_eq, hnew]
    refine ⟨?_, ?_, "connection to Registry could not be made: ", "", by simp⟩
    · intro config hdec
      rw [DeployConfigurable_decoded rh r store config hdec, hc]
    · rw [GetServiceConfig_eq, hc]
  · intro client hnew halive
    have hc : configurationCenterClient rh (r.Vars "servicekey") store =
        (.error ("registry (" ++ rh.config.Registry.Type_ ++ ") is not running"),
          [.NewConfigurationClient (serviceConfigOf rh (r.Vars "servicekey")),
            .ConfigurationIsAlive]) := by
      rw [configurationCenterClient_eq, hnew]
      simp [halive]
    refine ⟨?_, ?_⟩
    · intro config hdec
      rw [DeployConfigurable_decoded rh r store config hdec, hc]
    · rw [GetServiceConfig_eq, hc]
  · intro hnew hauth
    obtain ⟨t1, c1, h1⟩ := GetRegisteredServiceAll_of_auth rh r hauth
    obtain ⟨t2, c2, h2⟩ := RegistryIsAlive_of_auth rh r hauth
    refine ⟨?_, ?_, "", "", by simp⟩
    · rw [h1]
      unfold listEndpoints
      simp [registryCenterClient_eq, hnew]
    · rw [h2]
      unfold checkAlive
      simp [registryCenterClient_eq, hnew]

/-- C3 as amended, on the mock deployment whose backends refuse the connection:
the write answers 500 and the read 404, both with the refusal in the message. -/
theorem construction_failure_response_witness :
    (DeployConfigurable refusedHandler (mockRequest (.document (.object mockTree))) []).outcome =
      httpError "connection to Registry could not be made: connection refused" 500 ∧
    (GetServiceConfig refusedHandler (mockRequest (.document (.object mockTree))) []).outcome =
      httpError "connection to Registry could not be made: connection refused" 404 :=
  have h := (construction_failure_response refusedHandler
    (mockRequest (.document (.object mockTree))) [] "connection refused").1 rfl
  ⟨h.1 (.entries mockTreeDecoded) rfl, h.2.1⟩

/-- C6 fails as stated: in zero-trust mode with a registry port of -1 the
request for the direct URL cannot be built, and no endpoint is called at all. -/
theorem no_endpoint_called_when_request_cannot_be_built :
    (getAclTokenOfConsul badPortHandler (mockRequest (.malformed "EOF"))).2 =
      [.NewRequest "http://localhost:-1/v1/acl/token/self"] ∧
    ((getAclTokenOfConsul badPortHandler (mockRequest (.malformed "EOF"))).2.filter
      Call.isDo).length = 0 := by
  have h := getAcl_newRequest_fails badPortHandler (mockRequest (.malformed "EOF"))
    "invalid port after host" (by decide)
  have hu : tokenExchangeURL badPortHandler = "http://localhost:-1/v1/acl/token/self" := by
    decide
  rw [h, hu]
  exact ⟨rfl, rfl⟩

/-- C6 as amended: the resolver builds its request for the registry host and
port with the direct path in zero-trust mode, and for the API gateway server
and application port with the proxied path otherwise; when the request can be
built exactly one request is sent, to that URL, and when it cannot none is
sent; no request goes to any other URL. -/
theorem token_exchange_endpoint_selection {σ : Type} (rh : ResourceHandler σ) (r : Request) :
    (rh.secretProvider.IsZeroTrustEnabled = true →
      (getAclTokenOfConsul rh r).2.head? = some (.NewRequest
        ("http://" ++ rh.config.Registry.Host ++ ":" ++ toString rh.config.Registry.Port
          ++ rh.consts.AclOfConsulPathDirect)) ∧
      (rh.NewRequest ("http://" ++ rh.config.Registry.Host ++ ":"
          ++ toString rh.config.Registry.Port ++ rh.consts.AclOfConsulPathDirect) = none →
        (getAclTokenOfConsul rh r).2.filter Call.isDo =
          [.Do ("http://" ++ rh.config.Registry.Host ++ ":" ++ toString rh.config.Registry.Port
            ++ rh.consts.AclOfConsulPathDirect) rh.consts.Authorization
            ("Bearer " ++ r.Header "X-Consul-Token")]) ∧
      (rh.NewRequest ("http://" ++ rh.config.Registry.Host ++ ":"
          ++ toString rh.config.Registry.Port ++ rh.consts.AclOfConsulPathDirect) ≠ none →
        (getAclTokenOfConsul rh r).2.filter Call.isDo = [])) ∧
    (rh.secretProvider.IsZeroTrustEnabled = false →
      (getAclTokenOfConsul rh r).2.head? = some (.NewRequest
        ("http://" ++ rh.config.APIGateway.Server ++ ":"
          ++ toString rh.config.APIGateway.ApplicationPort ++ rh.consts.AclOfConsulPathProxied)) ∧
      (rh.NewRequest ("http://" ++ rh.config.APIGateway.Server ++ ":"
          ++ toString rh.config.APIGateway.ApplicationPort
          ++ rh.consts.AclOfConsulPathProxied) = none →
        (getAclTokenOfConsul rh r).2.filter Call.isDo =
          [.Do ("http://" ++ rh.config.APIGateway.Server ++ ":"
            ++ toString rh.config.APIGateway.ApplicationPort
            ++ rh.consts.AclOfConsulPathProxied) rh.consts.Authorization
            ("Bearer " ++ r.Header "X-Consul-Token")]) ∧
      (rh.NewRequest ("http://" ++ rh.config.APIGateway.Server ++ ":"
          ++ toString rh.config.APIGateway.ApplicationPort
          ++ rh.consts.AclOfConsulPathProxied) ≠ none →
        (getAclTokenOfConsul rh r).2.filter Call.isDo = [])) := by
  have key : ∀ e, rh.NewRequest (tokenExchangeURL rh) = e →
      (getAclTokenOfConsul rh r).2.head? = some (.NewRequest (tokenExchangeURL rh)) ∧
      (getAclTokenOfConsul rh r).2.filter Call.isDo =
        if e = none then
          [.Do (tokenExchangeURL rh) rh.consts.Authorization
            ("Bearer " ++ r.Header "X-Consul-Token")]
        else [] := by
    intro e he
    cases e with
    | some err =>
      rw [getAcl_newRequest_fails rh r err he]
      simp [Call.isDo]
    | none =>
      have hcalls : (getAclTokenOfConsul rh r).2 =
          [.NewRequest (tokenExchangeURL rh),
            .Do (tokenExchangeURL rh) rh.consts.Authorization
              ("Bearer " ++ r.Header "X-Consul-Token")] := by
        cases hdo : rh.Do (tokenExchangeURL rh) rh.consts.Authorization
            ("Bearer " ++ r.Header "X-Consul-Token") with
        | error e => rw [getAcl_do_fails rh r e he hdo]
        | ok resp =>
          cases hdec : decodeAcl resp.Body with
          | error e => rw [getAcl_decode_fails rh r resp e he hdo hdec]
          | ok secretID =>
            by_cases hs : resp.StatusCode = StatusOK
            · rw [getAcl_ok rh r resp secretID he hdo hdec hs]
            · rw [getAcl_status rh r resp secretID he hdo hdec hs]
      rw [hcalls]
      simp [Call.isDo]
  constructor
  · intro hz
    have hu : tokenExchangeURL rh = "http://" ++ rh.config.Registry.Host ++ ":"
        ++ toString rh.config.Registry.Port ++ rh.consts.AclOfConsulPathDirect := by
      simp [tokenExchangeURL, hz]
    rw [← hu]
    refine ⟨(key _ rfl).1, fun he => ?_, fun he => ?_⟩
    · rw [(key _ he).2]; rfl
    · rw [(key _ rfl).2, if_neg he]
  · intro hz
    have hu : tokenExchangeURL rh = "http://" ++ rh.config.APIGateway.Server ++ ":"
        ++ toString rh.config.APIGateway.ApplicationPort
        ++ rh.consts.AclOfConsulPathProxied := by
      simp [tokenExchangeURL, hz]
    rw [← hu]
    refine ⟨(key _ rfl).1, fun he => ?_, fun he => ?_⟩
    · rw [(key _ he).2]; rfl
    · rw [(key _ rfl).2, if_neg he]

/-- C6 as amended, on the secured mock deployment (zero-trust off): the one
request goes to the API gateway. -/
theorem token_exchange_endpoint_selection_witness :
    (getAclTokenOfConsul secureHandler (mockRequest (.malformed "EOF"))).2.filter Call.isDo =
      [.Do "http://gateway:8000/consul/v1/acl/token/self" "Authorization" "Bearer "] :=
  ((token_exchange_endpoint_selection secureHandler (mockRequest (.malformed "EOF"))).2
    rfl).2.1 rfl

/-- C7 fails as stated: the registry returns no endpoint as a nil slice and the
body of the 200 response is the JSON value null, not the empty array. -/
theorem nil_endpoint_list_encodes_as_null :
    (GetRegisteredServiceAll nilListHandler (mockRequest (.malformed "EOF"))).outcome.json?
      = some .null ∧
    (GetRegisteredServiceAll nilListHandler (mockRequest (.malformed "EOF"))).outcome.json?
      ≠ some (.array []) :=
  ⟨rfl, fun hc => Json.noConfusion (Option.some.inj hc)⟩

/-- C7 as amended: when the security block is passed, the registry client is
built and it returns no endpoint without error, `GetRegisteredServiceAll`
answers 200 with a JSON body and no error message; the body is the empty array
for an empty slice and null for the nil slice. -/
theorem GetRegisteredServiceAll_no_endpoints {σ : Type} (rh : ResourceHandler σ) (r : Request)
    (client : RegistryClient) (eps : Slice ServiceEndpoint) (hauth : AuthResolves rh r)
    (hnew : rh.NewRegistryClient (registryConfigOf rh) = .ok client)
    (hlist : client.GetAllServiceEndpoints = .ok eps) (hzero : eps.len = 0) :
    (GetRegisteredServiceAll rh r).outcome.status? = some 200 ∧
    (GetRegisteredServiceAll rh r).outcome.message? = none ∧
    (eps = .elems [] → (GetRegisteredServiceAll rh r).outcome = writeJson (.array [])) ∧
    (eps = .nil → (GetRegisteredServiceAll rh r).outcome = writeJson .null) ∧
    (eps = .elems [] ∨ eps = .nil) := by
  obtain ⟨token, calls, h⟩ := GetRegisteredServiceAll_of_auth rh r hauth
  have hout : (GetRegisteredServiceAll rh r).outcome =
      match jsonMarshalEndpoints eps with
      | .error err => httpError err StatusInternalServerError
      | .ok result => writeJson result := by
    rw [h]
    unfold listEndpoints
    simp only [registryCenterClient_eq, hnew, hlist]
    cases jsonMarshalEndpoints eps <;> rfl
  rw [hout]
  cases eps with
  | nil =>
    refine ⟨rfl, rfl, fun hc => Slice.noConfusion hc, fun _ => rfl, Or.inr rfl⟩
  | elems xs =>
    cases xs with
    | nil => refine ⟨rfl, rfl, fun _ => rfl, fun hc => Slice.noConfusion hc, Or.inl rfl⟩
    | cons x xs => simp [Slice.len] at hzero

/-- C7 as amended, on the mock deployment whose registry lists no endpoint as an
empty slice: the body is the empty array. -/
theorem GetRegisteredServiceAll_no_endpoints_witness :
    (GetRegisteredServiceAll emptyListHandler (mockRequest (.malformed "EOF"))).outcome =
      writeJson (.array []) :=
  (GetRegisteredServiceAll_no_endpoints emptyListHandler (mockRequest (.malformed "EOF"))
    ⟨true, .ok (.elems [])⟩ (.elems []) (fun hs => Bool.noConfusion hs) rfl rfl rfl).2.2.1 rfl

/-- C8 fails as stated: the body is a JSON object and no put fails, but the
store client cannot be built; the response is 500, not 200, and no put is made.
Besides, the body `null` is not a JSON object, yet it decodes without error
into the nil map, which is put, and the response is 200, not 400. -/
theorem DeployConfigurable_construction_failure_is_500 :
    jsonDecodeMap (mockRequest (.document (.object mockTree))).Body = .ok (.entries mockTreeDecoded) ∧
    (DeployConfigurable refusedHandler (mockRequest (.document (.object mockTree)))
      []).outcome.status? = some 500 ∧
    (DeployConfigurable refusedHandler (mockRequest (.document (.object mockTree)))
      []).outcome.status? ≠ some 200 ∧
    ((DeployConfigurable refusedHandler (mockRequest (.document (.object mockTree)))
      []).calls.filter Call.isPutConfigurationMap).length = 0 ∧
    (DeployConfigurable mockHandler (mockRequest (.document .null)) []).outcome = returnsEmpty ∧
    (DeployConfigurable mockHandler (mockRequest (.document .null)) []).calls.filter
      Call.isPutConfigurationMap = [.PutConfigurationMap .nil true] := by
  refine ⟨rfl, rfl, ?_, rfl, rfl, rfl⟩
  intro hc
  have h2 := Option.some.inj (show some (500 : Nat) = some _ from hc)
  omega

/-- C8 as amended: `DeployConfigurable` answers 400 with the decoder's message,
builds no store client and makes no put when the body does not decode into a
map; otherwise 500 with the factory's message and no put when the store client
cannot be built; otherwise it makes exactly one `PutConfigurationMap` call,
with the decoded tree and overwrite set, and answers 502 with the message of
the put failure, or 200 with an empty body when the put succeeds. -/
theorem DeployConfigurable_outcomes {σ : Type} (rh : ResourceHandler σ) (r : Request)
    (store : σ) :
    (∀ e, jsonDecodeMap r.Body = .error e →
      (DeployConfigurable rh r store).outcome = httpError e StatusBadRequest ∧
      (DeployConfigurable rh r store).calls = []) ∧
    (∀ config e, jsonDecodeMap r.Body = .ok config →
      (configurationCenterClient rh (r.Vars "servicekey") store).1 = .error e →
      (DeployConfigurable rh r store).outcome = httpError e StatusInternalServerError ∧
      (DeployConfigurable rh r store).calls.filter Call.isPutConfigurationMap = []) ∧
    (∀ config client, jsonDecodeMap r.Body = .ok config →
      (configurationCenterClient rh (r.Vars "servicekey") store).1 = .ok client →
      (DeployConfigurable rh r store).calls.filter Call.isPutConfigurationMap =
        [.PutConfigurationMap config true] ∧
      (∀ e, (client.PutConfigurationMap config true store).1 = some e →
        (DeployConfigurable rh r store).outcome = httpError e StatusBadGateway) ∧
      ((client.PutConfigurationMap config true store).1 = none →
        (DeployConfigurable rh r store).outcome = returnsEmpty ∧
        (DeployConfigurable rh r store).outcome.status? = some 200 ∧
        (DeployConfigurable rh r store).store =
          (client.PutConfigurationMap config true store).2)) := by
  have hcalls := configurationCenterClient_calls rh (r.Vars "servicekey") store
  refine ⟨?_, ?_, ?_⟩
  · intro e hdec
    simp [DeployConfigurable, hdec]
  · intro config e hdec hc
    rw [DeployConfigurable_decoded rh r store config hdec]
    simp only [hc]
    refine ⟨by first | rfl | trivial, ?_⟩
    rcases hcalls with h | h <;> simp [h, Call.isPutConfigurationMap]
  · intro config client hdec hc
    rw [DeployConfigurable_decoded rh r store config hdec]
    simp only [hc]
    refine ⟨?_, ?_, ?_⟩
    · cases hput : (client.PutConfigurationMap config true store).1 <;>
        rcases hcalls with h | h <;> simp [h, Call.isPutConfigurationMap]
    · intro e hput
      simp only [hput]
    · intro hput
      simp only [hput]
      refine ⟨?_, ?_, ?_⟩ <;> first | rfl | trivial

/-- C8 as amended, on the mock deployment: the tree is put once with overwrite
set and the response is 200 with an empty body. -/
theorem DeployConfigurable_outcomes_witness :
    (DeployConfigurable mockHandler (mockRequest (.document (.object mockTree)))
      []).calls.filter Call.isPutConfigurationMap =
        [.PutConfigurationMap (.entries mockTreeDecoded) true] ∧
    (DeployConfigurable mockHandler (mockRequest (.document (.object mockTree))) []).outcome =
      returnsEmpty :=
  have h := (DeployConfigurable_outcomes mockHandler
    (mockRequest (.document (.object mockTree))) []).2.2 (.entries mockTreeDecoded)
    (mockConfigurationClient (serviceConfigOf mockHandler "core-data")) rfl rfl
  ⟨h.1, (h.2.2 rfl).1⟩

/-- C4 fails as stated: the tree with the number 2^53 + 1 is written and read
back with the number 2^53, which is not JSON-equivalent to it; and the tree
with the number 1e400 is refused by the write with status 400. -/
theorem round_trip_changes_numbers :
    (DeployConfigurable mockHandler (mockRequest (.document (.object oddTree))) []).outcome =
      returnsEmpty ∧
    (GetServiceConfig mockHandler (mockRequest (.malformed "EOF"))
      (DeployConfigurable mockHandler (mockRequest (.document (.object oddTree)))
        []).store).outcome =
      writeJson (.object [("n", .number ⟨false, 9007199254740992, 0⟩)]) ∧
    ¬JsonEquiv (.object [("n", .number ⟨false, 9007199254740992, 0⟩)]) (.object oddTree) ∧
    (DeployConfigurable mockHandler (mockRequest (.document (.object hugeTree)))
      []).outcome.status? = some 400 := by
  refine ⟨rfl, rfl, ?_, rfl⟩
  intro h
  have h2 : Json.canon (.object [("n", .number ⟨false, 9007199254740992, 0⟩)]) =
      .object [("n", .number ⟨false, 9007199254740992, 0⟩)] := rfl
  have h3 : Json.canon (.object oddTree) =
      .object [("n", .number ⟨false, 9007199254740993, 0⟩)] := rfl
  rw [JsonEquiv, h2, h3] at h
  simp at h

/-- C4 as amended: against a configuration store whose clients are alive, store
exactly what `PutConfigurationMap` is given and report the namespace as
existing afterwards, for a JSON object `T` that the decoder accepts as the
map `m`: `DeployConfigurable` with body `T` for a non-empty service key
answers 200 with an empty body, and `GetServiceConfig` for the same key on
the store left by the write answers 200 with the encoding of `m` as body;
that body is JSON-equivalent to `T` when every number in `T` survives the
decoder and the encoder. -/
theorem deploy_then_get_round_trip {σ : Type} (rh : ResourceHandler σ) (key : String)
    (T : List (String × Json)) (m : List (String × GoValue)) (rW rR : Request) (store : σ)
    (hkey : key ≠ "")
    (hW : rW.Vars "servicekey" = key) (hbody : rW.Body = .document (.object T))
    (hR : rR.Vars "servicekey" = key)
    (hstore : ∀ cfg, ∃ client, rh.NewConfigurationClient cfg = .ok client ∧
      StoresWhatItIsGiven client)
    (hdec : jsonDecodeMap (.document (.object T)) = .ok (.entries m)) :
    (DeployConfigurable rh rW store).outcome = returnsEmpty ∧
    ∃ B, jsonMarshalMap (.entries m) = .ok B ∧
      (GetServiceConfig rh rR (DeployConfigurable rh rW store).store).outcome = writeJson B ∧
      (GetServiceConfig rh rR (DeployConfigurable rh rW store).store).outcome.status?
        = some 200 ∧
      (GetServiceConfig rh rR (DeployConfigurable rh rW store).store).outcome.json? = some B ∧
      (membersSurvive T = true → JsonEquiv B (.object T)) := by
  obtain ⟨client, hnew, halive, hput⟩ := hstore (serviceConfigOf rh key)
  have hc : ∀ st, configurationCenterClient rh key st =
      (.ok client, [.NewConfigurationClient (serviceConfigOf rh key), .ConfigurationIsAlive]) := by
    intro st
    rw [configurationCenterClient_eq, hnew]
    simp [halive st]
  have hdecW : jsonDecodeMap rW.Body = .ok (.entries m) := by rw [hbody]; exact hdec
  have hmembers : decodeMembers T [] = .ok m := by
    simp only [jsonDecodeMap] at hdec
    cases hd : decodeMembers T [] with
    | error e => simp [hd] at hdec
    | ok kvs =>
      simp only [hd, Except.ok.injEq, GoMap.entries.injEq] at hdec
      rw [hdec]
  obtain ⟨ms, hms⟩ := marshalEntries_of_encodable m
    (decodeMembers_encodable T [] m hmembers (by simp))
  have hB : jsonMarshalMap (.entries m) = .ok (.object ms) := by simp [jsonMarshalMap, hms]
  obtain ⟨hp1, hp2, hp3⟩ := hput (.entries m) store
  have hdeploy : DeployConfigurable rh rW store =
      ⟨returnsEmpty,
        [.NewConfigurationClient (serviceConfigOf rh key), .ConfigurationIsAlive]
          ++ [.PutConfigurationMap (.entries m) true],
        (client.PutConfigurationMap (.entries m) true store).2⟩ := by
    rw [DeployConfigurable_decoded rh rW store (.entries m) hdecW, hW, hc store]
    simp only [hp1]
  have hget : (GetServiceConfig rh rR
      (client.PutConfigurationMap (.entries m) true store).2).outcome =
        writeJson (.object ms) := by
    rw [GetServiceConfig_eq, hR, hc]
    simp only [hp2, hp3, hB]
    rfl
  rw [hdeploy]
  refine ⟨rfl, .object ms, hB, ?_⟩
  rw [hget]
  refine ⟨rfl, rfl, rfl, ?_⟩
  intro hsurv
  obtain ⟨v, hv, B1, hB1, hcanon⟩ := decodeValue_survives (.object T) (by
    simpa [Json.numbersSurvive] using hsurv)
  have hv2 : v = .map m := by
    simp only [decodeValue, hmembers] at hv
    exact (Except.ok.inj hv).symm
  subst hv2
  have hB2 : B1 = .object ms := by
    simp only [marshalValue, hms] at hB1
    exact (Except.ok.inj hB1).symm
  subst hB2
  exact hcanon

/-- C4 as amended, on the mock deployment: the example tree written for
`core-data` is read back as a body that is JSON-equivalent to it, with the
entries in key order and 59880 written as 5988e1. -/
theorem deploy_then_get_round_trip_witness :
    (∃ B, (GetServiceConfig mockHandler (mockRequest (.malformed "EOF"))
      (DeployConfigurable mockHandler (mockRequest (.document (.object mockTree)))
        []).store).outcome = writeJson B ∧ JsonEquiv B (.object mockTree)) ∧
    (GetServiceConfig mockHandler (mockRequest (.malformed "EOF"))
      (DeployConfigurable mockHandler (mockRequest (.document (.object mockTree)))
        []).store).outcome =
      writeJson (.object [("Port", .number ⟨false, 5988, 1⟩), ("Ratio", .number ⟨false, 15, -1⟩),
        ("Writable", .object [("LogLevel", .string "INFO")])]) :=
  have h := (deploy_then_get_round_trip mockHandler "core-data" mockTree mockTreeDecoded
    (mockRequest (.document (.object mockTree))) (mockRequest (.malformed "EOF")) []
    (by decide) rfl rfl rfl
    (fun cfg => ⟨mockConfigurationClient cfg, rfl, fun _ => rfl, fun m st => by
      simp [mockConfigurationClient, List.lookup]⟩) rfl).2
  ⟨h.elim fun B hB => ⟨B, hB.2.1, hB.2.2.2.2 rfl⟩, rfl⟩

end EdgexUI
